import Mathlib

/-
Verification of the deformation-to-texture/UV codec in the unreal_tools
repository (vertex_animation.py and mesh_morpher.py).

Modelling conventions of the shallow embedding:
* Python floats are modelled as exact rationals; all vector arithmetic in the
  source is componentwise addition/subtraction/scaling, which is exact.
* A Euclidean vector length appears in the source only inside
  find_max_deviation, where the running maximum of lengths is taken, and as
  the quantity fed into calculate_scale.  Lengths are irrational, so the
  scanner is embedded through squared lengths (sqNorm): since squaring is
  monotone on nonnegative reals, the running maximum over squared lengths is
  exactly the square of the running maximum over lengths.  Theorems that need
  the length itself take a rational m with 0 <= m and m * m equal to the
  squared maximum.
* Blender collections (mesh.vertices, mesh.loops, uv_layer.data, ...) are
  modelled as lists; an element's .index attribute is its position in the
  list, as in Blender.  In-place mutation becomes explicit state passing;
  a Python exception becomes an Except value that carries the state at the
  moment the exception was raised, since in Python the mutations performed
  before the raise persist.
* Operators return their status together with the final state.
-/

namespace UnrealTools

/-- A 3d vector with rational coordinates (models mathutils.Vector). -/
structure Vec3 where
  x : ℚ
  y : ℚ
  z : ℚ
  deriving DecidableEq, Repr

instance : Inhabited Vec3 := ⟨⟨0, 0, 0⟩⟩

/-- Componentwise subtraction, models `v1.co - v2.co`. -/
def Vec3.sub (a b : Vec3) : Vec3 := ⟨a.x - b.x, a.y - b.y, a.z - b.z⟩

/-- Componentwise scaling, models `offset * scale_factor`. -/
def Vec3.smul (c : ℚ) (a : Vec3) : Vec3 := ⟨c * a.x, c * a.y, c * a.z⟩

/-- Squared Euclidean length of a vector; `(v.co - original.co).length` squared. -/
def sqNorm (a : Vec3) : ℚ := a.x * a.x + a.y * a.y + a.z * a.z

namespace VertexAnimation

/-- One mesh vertex: position, normal and the vertex-group indices it belongs
to (models `v.co`, `v.normal`, `[g.group for g in v.groups]`). -/
structure AVert where
  co : Vec3
  normal : Vec3
  groups : List ℕ
  deriving DecidableEq, Repr

instance : Inhabited AVert := ⟨⟨default, default, []⟩⟩

/-- One per-frame snapshot mesh: its vertices (index = list position) and the
names of its vertex groups (index of a group = its list position). -/
structure AMesh where
  vertices : List AVert
  vertex_groups : List String
  deriving DecidableEq, Repr

instance : Inhabited AMesh := ⟨⟨[], []⟩⟩

/-- Source: vertex_animation.get_max_allowed_deviation.  Dictionary lookup
with default 0.01 for a key outside {M, DM, CM, MM}. -/
def get_max_allowed_deviation (target_unit : String) : ℚ :=
  if target_unit = "M" then 1
  else if target_unit = "DM" then 1/10
  else if target_unit = "CM" then 1/100
  else if target_unit = "MM" then 1/1000
  else 1/100

/-- Source: vertex_animation.calculate_scale.  `scale_factor` starts at 1 and
becomes `math.ceil(max_deviation / max_allowed_deviation)` when
`max_deviation > 0`. -/
def calculate_scale (max_deviation : ℚ) (target_unit : String) : ℤ :=
  if 0 < max_deviation then
    ⌈max_deviation / get_max_allowed_deviation target_unit⌉
  else 1

/-- Per-mesh list of raw offsets `v.co - original[v.index].co`, one per
vertex of `me`, in vertex order. -/
def meshDeltas (original : List AVert) (me : AMesh) : List Vec3 :=
  (List.range me.vertices.length).map fun i =>
    (me.vertices.getD i default).co.sub (original.getD i default).co

/-- Source: vertex_animation.find_max_deviation, embedded through squared
lengths.  The scan runs over `reversed(meshes)` (the same traversal order the
packer get_vertex_data uses) with `original = meshes[0].vertices`, keeping a
running maximum that starts at 0. -/
def find_max_deviation_sq (meshes : List AMesh) : ℚ :=
  let original := (meshes.getD 0 default).vertices
  meshes.reverse.foldl
    (fun acc me =>
      (meshDeltas original me).foldl
        (fun a d => if sqNorm d > a then sqNorm d else a) acc)
    0

/-- All delta vectors of one scan, flattened in the traversal order used by
find_max_deviation and get_vertex_data (snapshots reversed, vertices in
order). -/
def allDeltas (meshes : List AMesh) : List Vec3 :=
  let original := (meshes.getD 0 default).vertices
  (meshes.reverse.map (meshDeltas original)).flatten

/-- The four floats appended to the offsets buffer for one vertex, per
coordinate system branch of get_vertex_data; an unknown branch appends
nothing. -/
def offsetQuad (coord : String) (off : Vec3) : List ℚ :=
  if coord = "BLENDER" then [off.x, -off.y, off.z, 1]
  else if coord = "UE" then [-off.y, -off.x, off.z, 1]
  else []

/-- The four floats appended to the normals buffer for one vertex, per
coordinate system branch of get_vertex_data; an unknown branch appends
nothing. -/
def normalQuad (coord : String) (n : Vec3) : List ℚ :=
  if coord = "BLENDER" then
    [(n.x + 1) * (1/2), (-n.y + 1) * (1/2), (n.z + 1) * (1/2), 1]
  else if coord = "UE" then
    [(-n.y + 1) * (1/2), (-n.x + 1) * (1/2), (n.z + 1) * (1/2), 1]
  else []

/-- Inner loop of get_vertex_data over one mesh: resolve the vertex group on
this mesh, collect the member indices, then append the offset and normal
quads of every non-skipped vertex. -/
def meshContribution (original : List AVert) (scale : ℤ) (coord : String)
    (gname : Option String) (me : AMesh) : List ℚ × List ℚ :=
  let vg : Option ℕ :=
    match gname with
    | none => none
    | some n => me.vertex_groups.findIdx? (fun s => s = n)
  let gset : List ℕ :=
    match vg with
    | none => []
    | some g =>
        (List.range me.vertices.length).filter
          (fun i => g ∈ ((me.vertices.getD i default).groups))
  (List.range me.vertices.length).foldl
    (fun acc i =>
      if vg.isSome ∧ i ∉ gset then acc
      else
        let v := me.vertices.getD i default
        let off := Vec3.smul (scale : ℚ) (v.co.sub (original.getD i default).co)
        (acc.1 ++ offsetQuad coord off, acc.2 ++ normalQuad coord v.normal))
    ([], [])

/-- Source: vertex_animation.get_vertex_data.  Iterates `reversed(meshes)`
and accumulates the flat offsets and normals buffers. -/
def get_vertex_data (meshes : List AMesh) (scale : ℤ) (coord : String)
    (gname : Option String) : List ℚ × List ℚ :=
  let original := (meshes.getD 0 default).vertices
  meshes.reverse.foldl
    (fun acc me =>
      let c := meshContribution original scale coord gname me
      (acc.1 ++ c.1, acc.2 ++ c.2))
    ([], [])

/-- One UV layer: a name and one uv pair per mesh loop (data index = loop
index). -/
structure AUV where
  name : String
  data : List (ℚ × ℚ)
  deriving DecidableEq, Repr

instance : Inhabited AUV := ⟨⟨"", []⟩⟩

/-- The object update_uv_layer works on: its vertex-group names (an Object
attribute in Blender) together with the mesh data it owns - loops (each loop
is the index of the vertex it references), vertices and uv layers. -/
structure AObj where
  vertex_groups : List String
  loops : List ℕ
  vertices : List AVert
  uv_layers : List AUV
  deriving DecidableEq, Repr

/-- Distinct values of a list in first-encounter order, skipping those already
in `seen`. -/
def freshFirsts (seen : List ℕ) : List ℕ → List ℕ
  | [] => []
  | v :: rest => if v ∈ seen then freshFirsts seen rest
                 else v :: freshFirsts (v :: seen) rest

/-- Position of the first occurrence of `v` in `l` (length of `l` if absent). -/
def rankIn (l : List ℕ) (v : ℕ) : ℕ :=
  match l with
  | [] => 0
  | w :: r => if w = v then 0 else rankIn r v + 1

/-- Group resolution of update_uv_layer:
`vertex_group_name and vertex_group_name in ob.vertex_groups`, yielding the
group's index. -/
def resolve_group (ob : AObj) (gname : Option String) : Option ℕ :=
  match gname with
  | none => none
  | some n => ob.vertex_groups.findIdx? (fun s => s = n)

/-- Vertex indices belonging to group `gidx`:
`{v.index for v in me.vertices if group_index in [g.group for g in v.groups]}`. -/
def group_members (ob : AObj) (gidx : ℕ) : List ℕ :=
  (List.range ob.vertices.length).filter
    (fun i => gidx ∈ (ob.vertices.getD i default).groups)

/-- `total_group_vertices`: size of the resolved group, or the vertex count
when no group resolves. -/
def vat_total (ob : AObj) (gname : Option String) : ℕ :=
  match resolve_group ob gname with
  | some g => (group_members ob g).length
  | none => ob.vertices.length

/-- `vertex_in_group`: true when no group resolves, else membership of the
vertex index in the group. -/
def vat_active (ob : AObj) (gname : Option String) (v : ℕ) : Bool :=
  match resolve_group ob gname with
  | some g => decide (v ∈ group_members ob g)
  | none => true

/-- The loop of update_uv_layer: walk the loops; on the first encounter of a
vertex compute its uv (active vertices get `((pos + 1.5)/(T + 1), 0.5)` and
advance `pos`, others get `(0.5/(T + 1), 0.5)`), memoise it in
`uv_for_vertex`, and write the memoised uv at this loop's index.  Arguments:
remaining loops, current loop index, `current_group_position`, the
`uv_for_vertex` dictionary and the uv-layer data being written. -/
def vat_go (act : ℕ → Bool) (T : ℕ) :
    List ℕ → ℕ → ℕ → List (ℕ × (ℚ × ℚ)) → List (ℚ × ℚ) →
    List (ℕ × (ℚ × ℚ)) × List (ℚ × ℚ)
  | [], _, _, dict, data => (dict, data)
  | v :: rest, l, pos, dict, data =>
    match dict.lookup v with
    | some uv => vat_go act T rest (l + 1) pos dict (data.set l uv)
    | none =>
      if act v then
        let uv : ℚ × ℚ := (((pos : ℚ) + 3/2) / ((T : ℚ) + 1), 1/2)
        vat_go act T rest (l + 1) (pos + 1) (dict ++ [(v, uv)]) (data.set l uv)
      else
        let uv : ℚ × ℚ := ((1/2) / ((T : ℚ) + 1), 1/2)
        vat_go act T rest (l + 1) pos (dict ++ [(v, uv)]) (data.set l uv)

/-- Index of the first uv layer named "VAT", the layer `me.uv_layers.get("VAT")`
returns. -/
def findVAT : List AUV → Option ℕ
  | [] => none
  | L :: rest => if L.name = "VAT" then some 0 else (findVAT rest).map (· + 1)

/-- Source: vertex_animation.update_uv_layer.  Fetch or create the "VAT"
layer (a fresh layer has one default uv pair per loop), resolve the optional
vertex group, run the loop above, and return the updated object together with
the updated layer (the function's return value). -/
def update_uv_layer (ob : AObj) (gname : Option String) : AObj × AUV :=
  let T := vat_total ob gname
  let act := vat_active ob gname
  match findVAT ob.uv_layers with
  | some idx =>
    let L := ob.uv_layers.getD idx default
    let r := vat_go act T ob.loops 0 0 [] L.data
    let L' : AUV := { L with data := r.2 }
    ({ ob with uv_layers := ob.uv_layers.set idx L' }, L')
  | none =>
    let L : AUV := ⟨"VAT", List.replicate ob.loops.length (0, 0)⟩
    let r := vat_go act T ob.loops 0 0 [] L.data
    let L' : AUV := { L with data := r.2 }
    ({ ob with uv_layers := ob.uv_layers ++ [L'] }, L')

/-- The active vertices in first-encounter order over the loops: the order in
which update_uv_layer assigns fresh group positions. -/
def vatActiveFirsts (ob : AObj) (gname : Option String) : List ℕ :=
  (freshFirsts [] ob.loops).filter (fun w => vat_active ob gname w)

end VertexAnimation

namespace MeshMorpher

/-- One shape key block: per-vertex positions (`key.data[i].co`) and the
per-vertex normals that `key.normals_vertex_get()` yields, already grouped in
threes. -/
structure MShapeKey where
  data : List Vec3
  normals : List Vec3
  deriving DecidableEq, Repr

instance : Inhabited MShapeKey := ⟨⟨[], []⟩⟩

/-- One vertex-color layer: name plus one rgba per loop. -/
structure MVCol where
  name : String
  data : List (ℚ × ℚ × ℚ × ℚ)
  deriving DecidableEq, Repr

/-- One UV layer of the morph target mesh. -/
structure MUV where
  name : String
  data : List (ℚ × ℚ)
  deriving DecidableEq, Repr

instance : Inhabited MUV := ⟨⟨"", []⟩⟩

/-- The mesh state mesh_morpher mutates: loops (vertex index per loop),
vertex-color layers, uv layers and the optional shape-key blocks. -/
structure MMesh where
  loops : List ℕ
  vertex_colors : List MVCol
  uv_layers : List MUV
  shape_keys : Option (List MShapeKey)
  deriving DecidableEq, Repr

/-- Write phase of pack_normals: walk the loops in order, writing the
range-compressed normal of the loop's vertex at the loop's index.  A vertex
index outside the normals list raises IndexError; the colors written before
the raise persist, so the error carries them. -/
def pack_normals_write (normals : List Vec3) :
    ℕ → List ℕ → List (ℚ × ℚ × ℚ × ℚ) →
    Except (String × List (ℚ × ℚ × ℚ × ℚ)) (List (ℚ × ℚ × ℚ × ℚ))
  | _, [], data => Except.ok data
  | l, v :: rest, data =>
    match normals.get? v with
    | none => Except.error ("IndexError", data)
    | some n =>
      pack_normals_write normals (l + 1) rest
        (data.set l ((n.x + 1) * (1/2), (-n.y + 1) * (1/2), (n.z + 1) * (1/2), 1))

/-- Source: mesh_morpher.pack_normals.  Creates a vertex-color layer when
none exists (a fresh Blender layer holds one white rgba per loop), renames
the first layer to "normals", fetches the shape key (IndexError when the
index is out of range - by then the layer creation and rename have already
happened) and writes the compressed normals.  Errors carry the mutated mesh. -/
def pack_normals (me : MMesh) (shape_key_index : ℕ) :
    Except (String × MMesh) MMesh :=
  let vcs :=
    if me.vertex_colors.isEmpty then
      me.vertex_colors ++ [⟨"Col", List.replicate me.loops.length (1, 1, 1, 1)⟩]
    else me.vertex_colors
  let vcs1 := vcs.set 0 { (vcs.getD 0 ⟨"", []⟩) with name := "normals" }
  let me1 : MMesh := { me with vertex_colors := vcs1 }
  match me.shape_keys with
  | none => Except.error ("AttributeError", me1)
  | some keys =>
    match keys.get? shape_key_index with
    | none => Except.error ("IndexError", me1)
    | some key =>
      match pack_normals_write key.normals 0 me.loops
          ((vcs1.getD 0 ⟨"", []⟩).data) with
      | Except.error (msg, partial_data) =>
        Except.error (msg,
          { me1 with vertex_colors :=
              vcs1.set 0 { (vcs1.getD 0 ⟨"", []⟩) with data := partial_data } })
      | Except.ok full_data =>
        Except.ok
          { me1 with vertex_colors :=
              vcs1.set 0 { (vcs1.getD 0 ⟨"", []⟩) with data := full_data } }

/-- Source: mesh_morpher.get_shape_key_offsets.  For each of the first
`num_shape_keys` shape keys after the base, zip its vertex positions with the
base's, take the difference and append the three channels
`(-y, x, z)` - the source's hard-coded engine remap. -/
def get_shape_key_offsets (keys : List MShapeKey) (num_shape_keys : ℕ) :
    List (List ℚ) :=
  let original := (keys.getD 0 default).data
  (List.range num_shape_keys).foldl
    (fun acc i =>
      let target := (keys.getD (i + 1) default).data
      let ds := List.zipWith Vec3.sub target original
      acc ++ [ds.map (fun d => -d.y), ds.map (fun d => d.x), ds.map (fun d => d.z)])
    []

/-- Number of UV layers the packer consumes:
`(shape_keys // 2) * 3 + (shape_keys % 2) * 2` with
`shape_keys = len(offsets) // 3`. -/
def numUVNeeded (offsets : List (List ℚ)) : ℕ :=
  (offsets.length / 3 / 2) * 3 + (offsets.length / 3 % 2) * 2

/-- The uv pair pack_offsets writes into layer slot `i` for a loop of vertex
`v`: sign multipliers from the slot's two flat channel positions, the two
channel values (the second defaulting to 0 past the channel list) and the
`(U * m1, 1 + V * m2)` packing. -/
def packedUV (offsets : List (List ℚ)) (i v : ℕ) : ℚ × ℚ :=
  let m1 : ℚ := if ((i * 2) / 3) % 2 = 0 then 1 else -1
  let m2 : ℚ := if ((i * 2 + 1) / 3) % 2 = 0 then 1 else -1
  let U : ℚ := (offsets.getD (i * 2) []).getD v 0
  let V : ℚ := if i * 2 + 1 < offsets.length then (offsets.getD (i * 2 + 1) []).getD v 0
               else 0
  (U * m1, 1 + V * m2)

/-- Walk the loops in order writing `f vertex` at each loop's index. -/
def writeLoops (f : ℕ → ℚ × ℚ) : ℕ → List ℕ → List (ℚ × ℚ) → List (ℚ × ℚ)
  | _, [], data => data
  | l, v :: rest, data => writeLoops f (l + 1) rest (data.set l (f v))

/-- The axis letter `axes[a % 3]` of the layer-naming loop. -/
def axisChar (a : ℕ) : String :=
  if a % 3 = 0 then "X" else if a % 3 = 1 then "Y" else "Z"

/-- The layer-creation while-loop of pack_offsets: `n` layers remain to be
created; `morph` and `axis` are `morph_index` and `axis_index`.  Each new
layer is named from the next two channel labels, except that the very last
layer keeps only its first label when the total channel count is odd; fresh
layers carry one default uv pair per loop. -/
def makeLayers (loopcount : ℕ) : ℕ → ℕ → ℕ → List MUV
  | 0, _, _ => []
  | n + 1, morph, axis =>
    let part1 := toString morph ++ axisChar axis
    let morph1 := if axisChar axis = "Z" then morph + 1 else morph
    let part2 := toString morph1 ++ axisChar (axis + 1)
    let morph2 := if axisChar (axis + 1) = "Z" then morph1 + 1 else morph1
    let name :=
      if n = 0 ∧ (axis + 2) % 3 ≠ 0 then "Morph " ++ part1
      else "Morph " ++ part1 ++ " " ++ part2
    ⟨name, List.replicate loopcount (0, 0)⟩ :: makeLayers loopcount n morph2 (axis + 2)

/-- The write phase of pack_offsets: for each layer slot `i`, rewrite layer
`start + i` by walking every loop (the source nests the slot loop inside the
loop over loops; the writes touch pairwise distinct layer/index pairs, so the
two orders produce the same state). -/
def applyWrites (offsets : List (List ℚ)) (loops : List ℕ) (start : ℕ)
    (layers : List MUV) (num : ℕ) : List MUV :=
  (List.range num).foldl
    (fun ls i =>
      let L := ls.getD (start + i) default
      ls.set (start + i) { L with data := writeLoops (packedUV offsets i) 0 loops L.data })
    layers

/-- Source: mesh_morpher.pack_offsets.  Checks the UV-layer capacity before
touching anything (errors carry the untouched mesh), creates the missing
layers and writes every loop of every used layer. -/
def pack_offsets (me : MMesh) (offsets : List (List ℚ)) (start_uv_index : ℕ) :
    Except (String × MMesh) MMesh :=
  if 8 < start_uv_index + numUVNeeded offsets then
    Except.error ("Not enough UV layers to store the specified number of shape keys.", me)
  else
    Except.ok
      { me with
        uv_layers :=
          applyWrites offsets me.loops start_uv_index
            (me.uv_layers ++
              makeLayers me.loops.length
                (start_uv_index + numUVNeeded offsets - me.uv_layers.length) 1 0)
            (numUVNeeded offsets) }

/-- Scene unit settings read by the operator. -/
structure MUnits where
  system : String
  scale_length : ℚ
  deriving DecidableEq, Repr

/-- Model of Python's round(x, 2) (on exact rationals; the tie-breaking of
binary floats is irrelevant to the 0.01 comparison the operator makes). -/
def round2 (q : ℚ) : ℚ := (round (q * 100) : ℤ) / 100

/-- Operator properties of OBJECT_OT_ProcessShapeKeys. -/
structure MProps where
  bake_normal : Bool
  normal_shape_key_index : ℕ
  num_shape_keys : ℕ
  start_uv_index : ℕ
  deriving DecidableEq, Repr

/-- Outcome of an operator run: Blender status, or an uncaught exception. -/
inductive MResult where
  | FINISHED
  | CANCELLED
  | EXCEPTION
  deriving DecidableEq, Repr

/-- Source: OBJECT_OT_ProcessShapeKeys.execute.  Unit/shape-key validation,
then the optional normal bake (only IndexError is caught), then offset
packing (ValueError caught).  Returns the status together with the final
mesh state. -/
def execute (units : MUnits) (me : MMesh) (p : MProps) : MResult × MMesh :=
  if units.system ≠ "METRIC" ∨ round2 units.scale_length ≠ 1/100 then
    (MResult.CANCELLED, me)
  else
    match me.shape_keys with
    | none => (MResult.CANCELLED, me)
    | some keys =>
      if keys.length < 1 + p.num_shape_keys then (MResult.CANCELLED, me)
      else
        let afterNormals : Except (MResult × MMesh) MMesh :=
          if p.bake_normal then
            match pack_normals me p.normal_shape_key_index with
            | Except.error ("IndexError", me') => Except.error (MResult.CANCELLED, me')
            | Except.error (_, me') => Except.error (MResult.EXCEPTION, me')
            | Except.ok me' => Except.ok me'
          else Except.ok me
        match afterNormals with
        | Except.error r => r
        | Except.ok me1 =>
          match pack_offsets me1 (get_shape_key_offsets keys p.num_shape_keys)
              p.start_uv_index with
          | Except.error (_, me2) => (MResult.CANCELLED, me2)
          | Except.ok me2 => (MResult.FINISHED, me2)

/-- Sign multiplier for a packed scalar channel as the specification words
it.  Modelled from the spec: "channel position p: multiplier is -1 when
(p*2) div 3 is odd, else +1". -/
def spec_sign_multiplier (p : ℕ) : ℚ :=
  if ((p * 2) / 3) % 2 = 1 then -1 else 1

/-- Sign multiplier the code applies to the flat channel at position `c`
(channel `2i` gets `m1`, channel `2i+1` gets `m2`; both reduce to the parity
of `c / 3`, i.e. the parity of the 0-based shape-key ordinal). -/
def code_sign_multiplier (c : ℕ) : ℚ :=
  if (c / 3) % 2 = 1 then -1 else 1

end MeshMorpher

/-! Concrete inputs used by the witnesses and counterexamples below. -/

/-- Two one-vertex snapshots: the base at the origin and a frame displaced by
(2, 0, 0), so the maximum deviation is exactly 2. -/
def exMeshesVA : List VertexAnimation.AMesh :=
  [⟨[⟨⟨0, 0, 0⟩, ⟨0, 0, 1⟩, []⟩], []⟩,
   ⟨[⟨⟨2, 0, 0⟩, ⟨0, 0, 1⟩, []⟩], []⟩]

/-- The delta vector of the displaced frame's single vertex. -/
def exDeltaVA : Vec3 := ⟨2, 0, 0⟩

/-- A three-vertex object with one vertex group "G" containing vertex 1 only,
and loops visiting vertices 0, 1, 2, 1. -/
def exObj8 : VertexAnimation.AObj :=
  ⟨["G"],
   [0, 1, 2, 1],
   [⟨⟨0, 0, 0⟩, ⟨0, 0, 1⟩, []⟩,
    ⟨⟨1, 0, 0⟩, ⟨0, 0, 1⟩, [0]⟩,
    ⟨⟨2, 0, 0⟩, ⟨0, 0, 1⟩, []⟩],
   []⟩

/-- Metric scene units with the 0.01 scale the operator requires. -/
def exUnits : MeshMorpher.MUnits := ⟨"METRIC", 1/100⟩

/-- Non-metric scene units. -/
def exUnitsBad : MeshMorpher.MUnits := ⟨"IMPERIAL", 1/100⟩

/-- A one-loop mesh with two shape keys (base plus one) and no vertex colors
or uv layers. -/
def exMeshM : MeshMorpher.MMesh :=
  ⟨[0], [], [],
   some [⟨[⟨0, 0, 0⟩], [⟨0, 0, 1⟩]⟩, ⟨[⟨0, 0, 0⟩], [⟨0, 0, 1⟩]⟩]⟩

/-- Operator properties that bake normals from key 1 and then fail the
capacity check (start layer 7 + 2 needed layers = 9 > 8). -/
def exPropsCap : MeshMorpher.MProps := ⟨true, 1, 1, 7⟩

/-- The state execute leaves behind on that failing run: the baked normal
colors persist even though the pass was cancelled. -/
def exMeshM1 : MeshMorpher.MMesh :=
  ⟨[0], [⟨"normals", [(1/2, 1/2, 1, 1)]⟩], [],
   some [⟨[⟨0, 0, 0⟩], [⟨0, 0, 1⟩]⟩, ⟨[⟨0, 0, 0⟩], [⟨0, 0, 1⟩]⟩]⟩

/-- Shape keys whose only vertex moves from the origin to (1, 2, 3). -/
def exKeysC2 : List MeshMorpher.MShapeKey :=
  [⟨[⟨0, 0, 0⟩], []⟩, ⟨[⟨1, 2, 3⟩], []⟩]

/-- A bare one-loop mesh for exercising pack_offsets directly. -/
def exMeshP : MeshMorpher.MMesh := ⟨[0], [], [], none⟩

/-- Offset channels of one shape key (values 2, 3, 4 for its vertex). -/
def exOffs1 : List (List ℚ) := [[2], [3], [4]]

/-- The mesh pack_offsets produces from exMeshP and exOffs1 at start 0. -/
def exMeshPr : MeshMorpher.MMesh :=
  ⟨[0], [],
   [⟨"Morph 1X 1Y", [(2, 4)]⟩, ⟨"Morph 1Z", [(4, 1)]⟩],
   none⟩

/-- Offset channels of two shape keys, every channel value 1. -/
def exOffs6 : List (List ℚ) := [[1], [1], [1], [1], [1], [1]]

/-- The mesh pack_offsets produces from exMeshP and exOffs6 at start 0. -/
def exMeshPr6 : MeshMorpher.MMesh :=
  ⟨[0], [],
   [⟨"Morph 1X 1Y", [(1, 2)]⟩, ⟨"Morph 1Z 2X", [(1, 0)]⟩,
    ⟨"Morph 2Y 2Z", [(-1, 0)]⟩],
   none⟩

/-! Generic list helpers. -/

theorem get?_set {α : Type} (l : List α) (n m : ℕ) (a : α) :
    (l.set n a).get? m = if n = m ∧ n < l.length then some a else l.get? m := by
  induction l generalizing n m with
  | nil => simp [List.set]
  | cons x xs ih =>
    cases n with
    | zero =>
      cases m with
      | zero => simp
      | succ m => simp [List.set]
    | succ n =>
      cases m with
      | zero => simp [List.set]
      | succ m =>
        simp only [List.set, List.get?, ih n m, List.length_cons]
        by_cases h : n = m ∧ n < xs.length
        · rw [if_pos h, if_pos ⟨by omega, by omega⟩]
        · rw [if_neg h, if_neg (by omega)]

theorem getD_eq_get? {α : Type} (l : List α) (n : ℕ) (d : α) :
    l.getD n d = (l.get? n).getD d := by
  induction l generalizing n with
  | nil => simp [List.getD]
  | cons x xs ih => cases n <;> simp [List.getD, ih]

theorem get?_append {α : Type} (l1 l2 : List α) (n : ℕ) :
    (l1 ++ l2).get? n = if n < l1.length then l1.get? n else l2.get? (n - l1.length) := by
  induction l1 generalizing n with
  | nil => simp
  | cons x xs ih =>
    cases n with
    | zero => simp
    | succ n =>
      have hstep : ((x :: xs) ++ l2).get? (n + 1) = (xs ++ l2).get? n := rfl
      rw [hstep, ih n, List.length_cons]
      by_cases h : n < xs.length
      · rw [if_pos h, if_pos (by omega)]; rfl
      · rw [if_neg h, if_neg (by omega)]; congr 1; omega

theorem lookup_append_some {β : Type} (l1 l2 : List (ℕ × β)) (k : ℕ) (u : β)
    (h : l1.lookup k = some u) : (l1 ++ l2).lookup k = some u := by
  induction l1 with
  | nil => simp [List.lookup] at h
  | cons p l1 ih =>
    obtain ⟨k1, v1⟩ := p
    cases hk : (k == k1) with
    | true => simp only [List.cons_append, List.lookup, hk] at h ⊢; exact h
    | false => simp only [List.cons_append, List.lookup, hk] at h ⊢; exact ih h

theorem lookup_append_none {β : Type} (l1 l2 : List (ℕ × β)) (k : ℕ)
    (h : l1.lookup k = none) : (l1 ++ l2).lookup k = l2.lookup k := by
  induction l1 with
  | nil => simp
  | cons p l1 ih =>
    obtain ⟨k1, v1⟩ := p
    cases hk : (k == k1) with
    | true => simp only [List.lookup, hk] at h; exact absurd h (by simp)
    | false => simp only [List.cons_append, List.lookup, hk] at h ⊢; exact ih h

theorem lookup_eq_none_iff {β : Type} (l : List (ℕ × β)) (k : ℕ) :
    l.lookup k = none ↔ k ∉ l.map Prod.fst := by
  induction l with
  | nil => simp
  | cons p l ih =>
    obtain ⟨k1, v1⟩ := p
    cases hk : (k == k1) with
    | true =>
      simp only [List.lookup, hk, List.map_cons, List.mem_cons]
      have : k = k1 := by simpa using hk
      simp [this]
    | false =>
      simp only [List.lookup, hk, List.map_cons, List.mem_cons, ih]
      have : ¬ k = k1 := by simpa using hk
      simp [this]

theorem foldl_append_pair {α β : Type} (L : List α) (f g : α → List β)
    (acc : List β × List β) :
    L.foldl (fun a x => (a.1 ++ f x, a.2 ++ g x)) acc =
      (acc.1 ++ (L.map f).flatten, acc.2 ++ (L.map g).flatten) := by
  induction L generalizing acc with
  | nil => simp
  | cons x L ih => simp [ih, List.append_assoc]

theorem foldl_max_ge_start (L : List ℚ) (a : ℚ) : a ≤ L.foldl max a := by
  induction L generalizing a with
  | nil => simp
  | cons x L ih => exact le_trans (le_max_left a x) (ih (max a x))

theorem foldl_max_ge_mem (L : List ℚ) (a x : ℚ) (hx : x ∈ L) :
    x ≤ L.foldl max a := by
  induction L generalizing a with
  | nil => cases hx
  | cons y L ih =>
    rcases List.mem_cons.mp hx with h | h
    · subst h; exact le_trans (le_max_right a x) (foldl_max_ge_start L (max a x))
    · exact ih (max a y) h

theorem foldl_max_le (L : List ℚ) (a b : ℚ) (ha : a ≤ b)
    (hL : ∀ x ∈ L, x ≤ b) : L.foldl max a ≤ b := by
  induction L generalizing a with
  | nil => simpa using ha
  | cons x L ih =>
    exact ih (max a x) (max_le ha (hL x (List.mem_cons_self x L)))
      (fun y hy => hL y (List.mem_cons_of_mem x hy))

theorem foldl_max_congr_mem (L1 L2 : List ℚ) (a : ℚ)
    (h : ∀ x, x ∈ L1 ↔ x ∈ L2) : L1.foldl max a = L2.foldl max a := by
  apply le_antisymm
  · exact foldl_max_le L1 a _ (foldl_max_ge_start L2 a)
      (fun x hx => foldl_max_ge_mem L2 a x ((h x).mp hx))
  · exact foldl_max_le L2 a _ (foldl_max_ge_start L1 a)
      (fun x hx => foldl_max_ge_mem L1 a x ((h x).mpr hx))

/-! Facts about the unit table and the scale factor. -/

theorem gmad_pos (u : String) : 0 < VertexAnimation.get_max_allowed_deviation u := by
  unfold VertexAnimation.get_max_allowed_deviation
  split_ifs <;> norm_num

theorem calculate_scale_ge_one (m : ℚ) (u : String) :
    1 ≤ VertexAnimation.calculate_scale m u := by
  unfold VertexAnimation.calculate_scale
  by_cases hm : 0 < m
  · rw [if_pos hm]
    have hpos : (0 : ℚ) < m / VertexAnimation.get_max_allowed_deviation u :=
      div_pos hm (gmad_pos u)
    have := Int.ceil_pos.mpr hpos
    omega
  · rw [if_neg hm]

/-- C5: ScaleResolver maps MM, CM, DM, M to max allowed deviations 0.001,
0.01, 0.1, 1.0 meters, any unknown unit defaults to 0.01 rather than
failing, and calculate_scale returns ceil(maxDeviation / maxAllowed) when
maxDeviation > 0 and 1 otherwise; the result is an integer >= 1 for every
input. -/
theorem C5_scale_resolver (u : String) (m : ℚ) :
    VertexAnimation.get_max_allowed_deviation "MM" = 1/1000 ∧
    VertexAnimation.get_max_allowed_deviation "CM" = 1/100 ∧
    VertexAnimation.get_max_allowed_deviation "DM" = 1/10 ∧
    VertexAnimation.get_max_allowed_deviation "M" = 1 ∧
    (u ≠ "M" → u ≠ "DM" → u ≠ "CM" → u ≠ "MM" →
      VertexAnimation.get_max_allowed_deviation u = 1/100) ∧
    (0 < m → VertexAnimation.calculate_scale m u =
      ⌈m / VertexAnimation.get_max_allowed_deviation u⌉) ∧
    (¬ 0 < m → VertexAnimation.calculate_scale m u = 1) ∧
    1 ≤ VertexAnimation.calculate_scale m u := by
  refine ⟨rfl, rfl, rfl, rfl, ?_, ?_, ?_, ?_⟩
  · intro h1 h2 h3 h4
    unfold VertexAnimation.get_max_allowed_deviation
    rw [if_neg h1, if_neg h2, if_neg h3, if_neg h4]
  · intro hm
    unfold VertexAnimation.calculate_scale
    rw [if_pos hm]
  · intro hm
    unfold VertexAnimation.calculate_scale
    rw [if_neg hm]
  · exact calculate_scale_ge_one m u

/-- Witness for C5 at the unknown unit "FURLONG" and maxDeviation 5. -/
theorem C5_witness :
    VertexAnimation.get_max_allowed_deviation "FURLONG" = 1/100 ∧
    VertexAnimation.calculate_scale 5 "FURLONG" =
      ⌈(5 : ℚ) / VertexAnimation.get_max_allowed_deviation "FURLONG"⌉ ∧
    1 ≤ VertexAnimation.calculate_scale 5 "FURLONG" := by
  have h := C5_scale_resolver "FURLONG" 5
  exact ⟨h.2.2.2.2.1 (by decide) (by decide) (by decide) (by decide),
         h.2.2.2.2.2.1 (by norm_num),
         h.2.2.2.2.2.2.2⟩

/-- C4: pack_offsets raises its capacity error iff
startLayer + layersNeeded > 8, where layersNeeded = ceil(3 * numShapeKeys / 2)
(2, 3, 5, 6 for 1, 2, 3, 4 shape keys); the boundary case
startLayer + layersNeeded = 8 succeeds, and the error path returns the mesh
untouched, with no UV layer created or written. -/
theorem C4_capacity (me : MeshMorpher.MMesh) (offsets : List (List ℚ)) (start : ℕ) :
    MeshMorpher.numUVNeeded offsets = (3 * (offsets.length / 3) + 1) / 2 ∧
    (offsets.length / 3 = 1 → MeshMorpher.numUVNeeded offsets = 2) ∧
    (offsets.length / 3 = 2 → MeshMorpher.numUVNeeded offsets = 3) ∧
    (offsets.length / 3 = 3 → MeshMorpher.numUVNeeded offsets = 5) ∧
    (offsets.length / 3 = 4 → MeshMorpher.numUVNeeded offsets = 6) ∧
    (8 < start + MeshMorpher.numUVNeeded offsets →
      MeshMorpher.pack_offsets me offsets start =
        Except.error
          ("Not enough UV layers to store the specified number of shape keys.", me)) ∧
    (start + MeshMorpher.numUVNeeded offsets ≤ 8 →
      ∃ me', MeshMorpher.pack_offsets me offsets start = Except.ok me') := by
  refine ⟨?_, ?_, ?_, ?_, ?_, ?_, ?_⟩
  · unfold MeshMorpher.numUVNeeded; omega
  · intro h; unfold MeshMorpher.numUVNeeded at *; omega
  · intro h; unfold MeshMorpher.numUVNeeded at *; omega
  · intro h; unfold MeshMorpher.numUVNeeded at *; omega
  · intro h; unfold MeshMorpher.numUVNeeded at *; omega
  · intro h
    unfold MeshMorpher.pack_offsets
    rw [if_pos h]
  · intro h
    unfold MeshMorpher.pack_offsets
    rw [if_neg (by omega)]
    exact ⟨_, rfl⟩

/-- Witness for C4: with one shape key (layersNeeded = 2), start layer 7
fails (9 > 8) returning the untouched mesh, while the boundary start layer 6
(total exactly 8) succeeds. -/
theorem C4_witness :
    MeshMorpher.pack_offsets exMeshP exOffs1 7 =
      Except.error
        ("Not enough UV layers to store the specified number of shape keys.", exMeshP) ∧
    ∃ me', MeshMorpher.pack_offsets exMeshP exOffs1 6 = Except.ok me' := by
  exact ⟨(C4_capacity exMeshP exOffs1 7).2.2.2.2.2.1 (by decide),
         (C4_capacity exMeshP exOffs1 6).2.2.2.2.2.2 (by decide)⟩

/-! Characterisation of the deviation scan as a maximum. -/

theorem if_gt_eq_max (a x : ℚ) : (if x > a then x else a) = max a x := by
  by_cases h : x > a
  · rw [if_pos h, max_eq_right h.le]
  · rw [if_neg h, max_eq_left (le_of_not_lt h)]

theorem foldl_scan_eq_foldl_max (L : List Vec3) (a : ℚ) :
    L.foldl (fun b d => if sqNorm d > b then sqNorm d else b) a =
      (L.map sqNorm).foldl max a := by
  induction L generalizing a with
  | nil => rfl
  | cons d L ih =>
    simp only [List.foldl_cons, List.map_cons]
    rw [if_gt_eq_max]
    exact ih (max a (sqNorm d))

theorem foldl_mesh_scan (orig : List VertexAnimation.AVert)
    (Ms : List VertexAnimation.AMesh) (a : ℚ) :
    Ms.foldl
      (fun acc me =>
        (VertexAnimation.meshDeltas orig me).foldl
          (fun b d => if sqNorm d > b then sqNorm d else b) acc) a =
      ((Ms.map (VertexAnimation.meshDeltas orig)).flatten.map sqNorm).foldl max a := by
  induction Ms generalizing a with
  | nil => rfl
  | cons me Ms ih =>
    simp only [List.foldl_cons, List.map_cons, List.flatten_cons, List.map_append,
      List.foldl_append]
    rw [foldl_scan_eq_foldl_max]
    exact ih _

theorem fmds_eq_foldl_max (meshes : List VertexAnimation.AMesh) :
    VertexAnimation.find_max_deviation_sq meshes =
      ((VertexAnimation.allDeltas meshes).map sqNorm).foldl max 0 := by
  unfold VertexAnimation.find_max_deviation_sq VertexAnimation.allDeltas
  exact foldl_mesh_scan _ _ 0

theorem sqNorm_le_fmds (meshes : List VertexAnimation.AMesh) (d : Vec3)
    (hd : d ∈ VertexAnimation.allDeltas meshes) :
    sqNorm d ≤ VertexAnimation.find_max_deviation_sq meshes := by
  rw [fmds_eq_foldl_max]
  exact foldl_max_ge_mem _ 0 _ (List.mem_map_of_mem sqNorm hd)

/-- C1 (corrected): the claimed inequality is `|d| * s <= maxAllowed + eps`;
the code multiplies deltas by the scale factor before storage, so the product
`|d| * s` grows with the deviation and is not bounded by the unit constant.
What the construction does guarantee is `|d| <= s * maxAllowed` (equivalently
`|d| / s <= maxAllowed`): stated in squares to stay rational, for every delta
vector `d` of the snapshot set and the scale factor derived from the same
snapshot set, `|d|^2 <= (s * maxAllowed)^2`, where `m` is the maximum
deviation (`m >= 0` with `m * m` equal to the scanned maximum of squared
lengths). -/
theorem C1_no_clipping_amended (meshes : List VertexAnimation.AMesh)
    (u : String) (m : ℚ) (hm0 : 0 ≤ m)
    (hm : m * m = VertexAnimation.find_max_deviation_sq meshes)
    (d : Vec3) (hd : d ∈ VertexAnimation.allDeltas meshes) :
    sqNorm d ≤
      ((VertexAnimation.calculate_scale m u : ℚ) *
          VertexAnimation.get_max_allowed_deviation u) *
        ((VertexAnimation.calculate_scale m u : ℚ) *
          VertexAnimation.get_max_allowed_deviation u) := by
  have hsq : sqNorm d ≤ m * m := hm ▸ sqNorm_le_fmds meshes d hd
  have ha : (0 : ℚ) < VertexAnimation.get_max_allowed_deviation u := gmad_pos u
  have hs1 : (1 : ℚ) ≤ (VertexAnimation.calculate_scale m u : ℚ) := by
    exact_mod_cast calculate_scale_ge_one m u
  have hma : m ≤ (VertexAnimation.calculate_scale m u : ℚ) *
      VertexAnimation.get_max_allowed_deviation u := by
    by_cases hmp : 0 < m
    · have hdef : VertexAnimation.calculate_scale m u =
          ⌈m / VertexAnimation.get_max_allowed_deviation u⌉ := by
        unfold VertexAnimation.calculate_scale; rw [if_pos hmp]
      have hceil : m / VertexAnimation.get_max_allowed_deviation u ≤
          (VertexAnimation.calculate_scale m u : ℚ) := by
        rw [hdef]; exact Int.le_ceil _
      have := mul_le_mul_of_nonneg_right hceil ha.le
      rwa [div_mul_cancel₀ m (ne_of_gt ha)] at this
    · have hz : m = 0 := le_antisymm (not_lt.mp hmp) hm0
      subst hz
      exact mul_nonneg (by linarith) ha.le
  calc sqNorm d ≤ m * m := hsq
    _ ≤ _ := mul_self_le_mul_self hm0 hma

/-- Witness for the amended C1 at the concrete snapshot pair with deviation
2 and target unit CM (scale 200, bound (200 * 0.01)^2 = 4). -/
theorem C1_witness :
    sqNorm exDeltaVA ≤
      ((VertexAnimation.calculate_scale 2 "CM" : ℚ) *
          VertexAnimation.get_max_allowed_deviation "CM") *
        ((VertexAnimation.calculate_scale 2 "CM" : ℚ) *
          VertexAnimation.get_max_allowed_deviation "CM") :=
  C1_no_clipping_amended exMeshesVA "CM" 2 (by norm_num)
    (by norm_num [VertexAnimation.find_max_deviation_sq,
      VertexAnimation.meshDeltas, exMeshesVA, sqNorm, Vec3.sub, List.range_succ])
    exDeltaVA
    (by norm_num [VertexAnimation.allDeltas, VertexAnimation.meshDeltas,
      exMeshesVA, exDeltaVA, Vec3.sub, List.range_succ])

/-- Counterexample to C1 as stated: on a snapshot set with maximum deviation
2 and target unit CM, the scale factor is 200 and the delta of length 2
satisfies `|d| * s = 400`, far above `maxAllowed + eps = 0.01 + 1` even with
the generous tolerance eps = 1. -/
theorem C1_counterexample :
    VertexAnimation.find_max_deviation_sq exMeshesVA = 4 ∧
    (2 : ℚ) * 2 = 4 ∧
    exDeltaVA ∈ VertexAnimation.allDeltas exMeshesVA ∧
    sqNorm exDeltaVA = 2 * 2 ∧
    VertexAnimation.calculate_scale 2 "CM" = 200 ∧
    ¬ ((2 : ℚ) * (VertexAnimation.calculate_scale 2 "CM" : ℚ) ≤
        VertexAnimation.get_max_allowed_deviation "CM" + 1) := by
  refine ⟨?_, by norm_num, ?_, ?_, ?_, ?_⟩
  · norm_num [VertexAnimation.find_max_deviation_sq, VertexAnimation.meshDeltas,
      exMeshesVA, sqNorm, Vec3.sub, List.range_succ]
  · norm_num [VertexAnimation.allDeltas, VertexAnimation.meshDeltas,
      exMeshesVA, exDeltaVA, Vec3.sub, List.range_succ]
  · norm_num [sqNorm, exDeltaVA]
  · unfold VertexAnimation.calculate_scale
    rw [if_pos (by norm_num : (0:ℚ) < 2),
      show VertexAnimation.get_max_allowed_deviation "CM" = 1/100 from rfl]
    norm_num
  · unfold VertexAnimation.calculate_scale
    rw [if_pos (by norm_num : (0:ℚ) < 2),
      show VertexAnimation.get_max_allowed_deviation "CM" = 1/100 from rfl]
    norm_num

/-- Generic shape of an accumulating append fold. -/
theorem foldl_append_acc {α β : Type} (L : List α) (g : α → List β)
    (init : List β) :
    L.foldl (fun acc x => acc ++ g x) init = init ++ (L.map g).flatten := by
  induction L generalizing init with
  | nil => simp
  | cons x L ih => simp [ih, List.append_assoc]

/-- C2 (corrected): the per-frame texture scheme applies exactly the claimed
tables - (x, -y, z) for BLENDER and (-y, -x, z) for UE, and the matching
remaps to normals before range compression - but the shape-key UV scheme
does not: get_shape_key_offsets hard-codes the remap (-y, x, z), whose second
component is +x, not -x. -/
theorem C2_coordinate_transform_amended :
    (∀ off : Vec3, VertexAnimation.offsetQuad "BLENDER" off =
      [off.x, -off.y, off.z, 1]) ∧
    (∀ off : Vec3, VertexAnimation.offsetQuad "UE" off =
      [-off.y, -off.x, off.z, 1]) ∧
    (∀ n : Vec3, VertexAnimation.normalQuad "BLENDER" n =
      [(n.x + 1) * (1/2), (-n.y + 1) * (1/2), (n.z + 1) * (1/2), 1]) ∧
    (∀ n : Vec3, VertexAnimation.normalQuad "UE" n =
      [(-n.y + 1) * (1/2), (-n.x + 1) * (1/2), (n.z + 1) * (1/2), 1]) ∧
    (∀ (keys : List MeshMorpher.MShapeKey) (num : ℕ),
      MeshMorpher.get_shape_key_offsets keys num =
        ((List.range num).map (fun j =>
          [(List.zipWith Vec3.sub (keys.getD (j + 1) default).data
              (keys.getD 0 default).data).map (fun d => -d.y),
           (List.zipWith Vec3.sub (keys.getD (j + 1) default).data
              (keys.getD 0 default).data).map (fun d => d.x),
           (List.zipWith Vec3.sub (keys.getD (j + 1) default).data
              (keys.getD 0 default).data).map (fun d => d.z)])).flatten) := by
  refine ⟨fun off => rfl, fun off => rfl, fun n => rfl, fun n => rfl, ?_⟩
  intro keys num
  unfold MeshMorpher.get_shape_key_offsets
  simpa using foldl_append_acc (List.range num) _ []

/-- Counterexample to C2 as stated: for the delta (1, 2, 3) the claimed
ALT_ENGINE table gives (-2, -1, 3), but the shape-key scheme stores
(-2, 1, 3): the second channel flips sign. -/
theorem C2_counterexample :
    MeshMorpher.get_shape_key_offsets exKeysC2 1 = [[-2], [1], [3]] ∧
    ([[-2], [1], [3]] : List (List ℚ)) ≠ [[-2], [-1], [3]] := by
  refine ⟨?_, by norm_num⟩
  norm_num [MeshMorpher.get_shape_key_offsets, exKeysC2, Vec3.sub,
    List.range_succ, List.zipWith]

/-- A fold whose step never changes the accumulator. -/
theorem foldl_fixed {α β : Type} (L : List α) (step : β → α → β)
    (h : ∀ b x, step b x = b) (b : β) : L.foldl step b = b := by
  induction L generalizing b with
  | nil => rfl
  | cons x L ih => rw [List.foldl_cons, h b x]; exact ih b

theorem meshContribution_unknown (orig : List VertexAnimation.AVert)
    (scale : ℤ) (coord : String) (gname : Option String)
    (me : VertexAnimation.AMesh)
    (hb : coord ≠ "BLENDER") (hu : coord ≠ "UE") :
    VertexAnimation.meshContribution orig scale coord gname me = ([], []) := by
  unfold VertexAnimation.meshContribution
  apply foldl_fixed
  intro b i
  have hoff : ∀ v, VertexAnimation.offsetQuad coord v = [] := by
    intro v; unfold VertexAnimation.offsetQuad; rw [if_neg hb, if_neg hu]
  have hnor : ∀ v, VertexAnimation.normalQuad coord v = [] := by
    intro v; unfold VertexAnimation.normalQuad; rw [if_neg hb, if_neg hu]
  split
  · rfl
  · simp [hoff, hnor]

/-- C9 (corrected): the claim says an unknown convention tag fails with a
configuration error; in the code get_vertex_data has no error path - its
if/elif appends nothing for an unknown tag, so the whole encode silently
yields empty offset and normal buffers. -/
theorem C9_unknown_convention_amended (meshes : List VertexAnimation.AMesh)
    (scale : ℤ) (gname : Option String) (coord : String)
    (hb : coord ≠ "BLENDER") (hu : coord ≠ "UE") :
    VertexAnimation.get_vertex_data meshes scale coord gname = ([], []) := by
  unfold VertexAnimation.get_vertex_data
  apply foldl_fixed
  intro b me
  rw [meshContribution_unknown _ scale coord gname me hb hu]
  simp

/-- Witness for the amended C9 at the concrete tag "XYZ". -/
theorem C9_witness :
    VertexAnimation.get_vertex_data exMeshesVA 1 "XYZ" none = ([], []) :=
  C9_unknown_convention_amended exMeshesVA 1 none "XYZ" (by decide) (by decide)

/-- Counterexample to C9 as stated: with the unknown tag "XYZ" the encode
does not fail - it silently returns empty buffers, although the same
snapshots produce non-empty buffers under the known tag BLENDER. -/
theorem C9_counterexample :
    VertexAnimation.get_vertex_data exMeshesVA 1 "XYZ" none = ([], []) ∧
    VertexAnimation.get_vertex_data exMeshesVA 1 "BLENDER" none ≠ ([], []) := by
  decide

/-! Row-order facts for the per-frame texture scheme. -/

theorem foldl_congr_fun {α β : Type} (L : List α) (f g : β → α → β) (b : β)
    (h : ∀ b x, f b x = g b x) : L.foldl f b = L.foldl g b := by
  induction L generalizing b with
  | nil => rfl
  | cons x L ih => rw [List.foldl_cons, List.foldl_cons, h b x]; exact ih (g b x)

theorem flatten_const_length {α : Type} (L : List α) (f : α → List ℚ)
    (h : ∀ x ∈ L, (f x).length = 4) :
    ((L.map f).flatten).length = 4 * L.length := by
  induction L with
  | nil => rfl
  | cons x L ih =>
    simp only [List.map_cons, List.flatten_cons, List.length_append,
      List.length_cons, ih (fun y hy => h y (List.mem_cons_of_mem x hy)),
      h x (List.mem_cons_self x L)]
    ring

theorem offsetQuad_length (coord : String) (v : Vec3)
    (hc : coord = "BLENDER" ∨ coord = "UE") :
    (VertexAnimation.offsetQuad coord v).length = 4 := by
  rcases hc with hc | hc <;> subst hc <;> rfl

theorem get_vertex_data_eq_flatten (meshes : List VertexAnimation.AMesh)
    (scale : ℤ) (coord : String) (gname : Option String) :
    VertexAnimation.get_vertex_data meshes scale coord gname =
      ((meshes.reverse.map (fun me =>
          (VertexAnimation.meshContribution (meshes.getD 0 default).vertices
            scale coord gname me).1)).flatten,
       (meshes.reverse.map (fun me =>
          (VertexAnimation.meshContribution (meshes.getD 0 default).vertices
            scale coord gname me).2)).flatten) := by
  unfold VertexAnimation.get_vertex_data
  have h := foldl_append_pair (meshes.reverse)
    (fun me => (VertexAnimation.meshContribution (meshes.getD 0 default).vertices
      scale coord gname me).1)
    (fun me => (VertexAnimation.meshContribution (meshes.getD 0 default).vertices
      scale coord gname me).2)
    ([], [])
  simpa using h

theorem meshContribution_none_eq (orig : List VertexAnimation.AVert)
    (scale : ℤ) (coord : String) (me : VertexAnimation.AMesh) :
    VertexAnimation.meshContribution orig scale coord none me =
      (((List.range me.vertices.length).map (fun i =>
          VertexAnimation.offsetQuad coord (Vec3.smul (scale : ℚ)
            ((me.vertices.getD i default).co.sub (orig.getD i default).co)))).flatten,
       ((List.range me.vertices.length).map (fun i =>
          VertexAnimation.normalQuad coord
            (me.vertices.getD i default).normal)).flatten) := by
  unfold VertexAnimation.meshContribution
  have hstep := foldl_congr_fun (List.range me.vertices.length)
    (fun (acc : List ℚ × List ℚ) i =>
      if (none : Option ℕ).isSome = true ∧ i ∉ ([] : List ℕ) then acc
      else
        (acc.1 ++ VertexAnimation.offsetQuad coord (Vec3.smul (scale : ℚ)
            ((me.vertices.getD i default).co.sub (orig.getD i default).co)),
         acc.2 ++ VertexAnimation.normalQuad coord
            (me.vertices.getD i default).normal))
    (fun (acc : List ℚ × List ℚ) i =>
      (acc.1 ++ VertexAnimation.offsetQuad coord (Vec3.smul (scale : ℚ)
          ((me.vertices.getD i default).co.sub (orig.getD i default).co)),
       acc.2 ++ VertexAnimation.normalQuad coord
          (me.vertices.getD i default).normal))
    ([], [])
    (by intro b i; simp)
  rw [hstep, foldl_append_pair]
  simp

/-- C7: the per-frame packer lists the snapshots in reverse sequence order,
so the snapshot processed last occupies row 0 of the pixel grid: the flat
offset and normal buffers are the concatenation of per-snapshot chunks over
`meshes.reverse`, the first chunk's worth of entries equals the last
snapshot's chunk (with the no-group, known-convention chunk width being
4 * vertexCount), and the deviation scan - which traverses the same reversed
snapshot list - computes a value independent of that traversal order (the
maximum over all delta vectors). -/
theorem C7_row_order (meshes : List VertexAnimation.AMesh) (scale : ℤ)
    (coord : String) (gname : Option String) :
    (VertexAnimation.get_vertex_data meshes scale coord gname).1 =
      (meshes.reverse.map (fun me =>
        (VertexAnimation.meshContribution (meshes.getD 0 default).vertices
          scale coord gname me).1)).flatten ∧
    (VertexAnimation.get_vertex_data meshes scale coord gname).2 =
      (meshes.reverse.map (fun me =>
        (VertexAnimation.meshContribution (meshes.getD 0 default).vertices
          scale coord gname me).2)).flatten ∧
    (∀ h : meshes ≠ [],
      ((VertexAnimation.get_vertex_data meshes scale coord gname).1).take
          ((VertexAnimation.meshContribution (meshes.getD 0 default).vertices
            scale coord gname (meshes.getLast h)).1).length =
        (VertexAnimation.meshContribution (meshes.getD 0 default).vertices
          scale coord gname (meshes.getLast h)).1) ∧
    (∀ h : meshes ≠ [], gname = none →
      (coord = "BLENDER" ∨ coord = "UE") →
      ((VertexAnimation.meshContribution (meshes.getD 0 default).vertices
          scale coord gname (meshes.getLast h)).1).length =
        4 * (meshes.getLast h).vertices.length) ∧
    VertexAnimation.find_max_deviation_sq meshes =
      ((VertexAnimation.allDeltas meshes).map sqNorm).foldl max 0 ∧
    ((VertexAnimation.allDeltas meshes).map sqNorm).foldl max 0 =
      (((meshes.map (VertexAnimation.meshDeltas
          (meshes.getD 0 default).vertices)).flatten).map sqNorm).foldl max 0 := by
  have hflat := get_vertex_data_eq_flatten meshes scale coord gname
  have hrev : ∀ h : meshes ≠ [],
      meshes.reverse = meshes.getLast h :: meshes.dropLast.reverse := by
    intro h
    conv_lhs => rw [← List.dropLast_append_getLast h]
    rw [List.reverse_append]
    rfl
  refine ⟨by rw [hflat], by rw [hflat], ?_, ?_, fmds_eq_foldl_max meshes, ?_⟩
  · intro h
    rw [hflat]
    simp only [hrev h, List.map_cons, List.flatten_cons]
    exact List.take_left _ _
  · intro h hg hc
    subst hg
    rw [meshContribution_none_eq]
    simp only []
    rw [flatten_const_length _ _ (fun i _ => offsetQuad_length coord _ hc)]
    simp
  · apply foldl_max_congr_mem
    intro x
    unfold VertexAnimation.allDeltas
    simp only [List.mem_map, List.mem_flatten, List.mem_reverse]

/-- Witness for C7 at the two-snapshot example under the BLENDER convention:
the first row's worth of the offsets buffer is the last snapshot's chunk, of
width 4 * vertexCount. -/
theorem C7_witness :
    ((VertexAnimation.get_vertex_data exMeshesVA 1 "BLENDER" none).1).take
        ((VertexAnimation.meshContribution (exMeshesVA.getD 0 default).vertices
          1 "BLENDER" none (exMeshesVA.getLast (List.cons_ne_nil _ _))).1).length =
      (VertexAnimation.meshContribution (exMeshesVA.getD 0 default).vertices
        1 "BLENDER" none (exMeshesVA.getLast (List.cons_ne_nil _ _))).1 ∧
    ((VertexAnimation.meshContribution (exMeshesVA.getD 0 default).vertices
        1 "BLENDER" none (exMeshesVA.getLast (List.cons_ne_nil _ _))).1).length =
      4 * (exMeshesVA.getLast (List.cons_ne_nil _ _)).vertices.length := by
  have h := C7_row_order exMeshesVA 1 "BLENDER" none
  exact ⟨h.2.2.1 _, h.2.2.2.1 _ rfl (Or.inl rfl)⟩

/-! Characterisation of the pack_offsets write phase. -/

theorem writeLoops_get? (f : ℕ → ℚ × ℚ) (loops : List ℕ) :
    ∀ (l j : ℕ) (data : List (ℚ × ℚ)),
      (MeshMorpher.writeLoops f l loops data).get? j =
        if l ≤ j ∧ j < l + loops.length ∧ j < data.length then
          some (f (loops.getD (j - l) 0))
        else data.get? j := by
  induction loops with
  | nil =>
    intro l j data
    rw [if_neg (by simp only [List.length_nil]; omega)]
    rfl
  | cons v rest ih =>
    intro l j data
    have hwl : MeshMorpher.writeLoops f l (v :: rest) data =
        MeshMorpher.writeLoops f (l + 1) rest (data.set l (f v)) := rfl
    rw [hwl, ih (l + 1) j (data.set l (f v)), List.length_set]
    by_cases h1 : l + 1 ≤ j ∧ j < l + 1 + rest.length ∧ j < data.length
    · rw [if_pos h1, if_pos (by simp only [List.length_cons]; omega)]
      have hj : j - l = (j - (l + 1)) + 1 := by omega
      rw [hj]
      rfl
    · rw [if_neg h1, get?_set]
      by_cases h2 : l = j ∧ l < data.length
      · rw [if_pos h2, if_pos (by simp only [List.length_cons]; omega)]
        have hj : j - l = 0 := by omega
        rw [hj]
        rfl
      · rw [if_neg h2, if_neg (by simp only [List.length_cons]; omega)]

theorem makeLayers_length (lc : ℕ) :
    ∀ (n m a : ℕ), (MeshMorpher.makeLayers lc n m a).length = n := by
  intro n
  induction n with
  | zero => intro m a; rfl
  | succ n ih =>
    intro m a
    simp only [MeshMorpher.makeLayers, List.length_cons, ih]

theorem makeLayers_data (lc : ℕ) :
    ∀ (n m a : ℕ) (L : MeshMorpher.MUV), L ∈ MeshMorpher.makeLayers lc n m a →
      L.data = List.replicate lc (0, 0) := by
  intro n
  induction n with
  | zero => intro m a L hL; cases hL
  | succ n ih =>
    intro m a L hL
    rcases List.mem_cons.mp hL with h | h
    · rw [h]
    · exact ih _ _ L h

theorem applyWrites_succ (offsets : List (List ℚ)) (loops : List ℕ)
    (start n : ℕ) (layers : List MeshMorpher.MUV) :
    MeshMorpher.applyWrites offsets loops start layers (n + 1) =
      (MeshMorpher.applyWrites offsets loops start layers n).set (start + n)
        { (MeshMorpher.applyWrites offsets loops start layers n).getD (start + n)
            default with
          data := MeshMorpher.writeLoops (MeshMorpher.packedUV offsets n) 0 loops
            ((MeshMorpher.applyWrites offsets loops start layers n).getD (start + n)
                default).data } := by
  unfold MeshMorpher.applyWrites
  rw [List.range_succ, List.foldl_append]
  rfl

theorem applyWrites_length (offsets : List (List ℚ)) (loops : List ℕ) (start : ℕ) :
    ∀ (num : ℕ) (layers : List MeshMorpher.MUV),
      (MeshMorpher.applyWrites offsets loops start layers num).length =
        layers.length := by
  intro num
  induction num with
  | zero => intro layers; rfl
  | succ n ih =>
    intro layers
    rw [applyWrites_succ, List.length_set]
    exact ih layers

theorem applyWrites_get? (offsets : List (List ℚ)) (loops : List ℕ) (start : ℕ) :
    ∀ (num : ℕ) (layers : List MeshMorpher.MUV) (j : ℕ),
      (MeshMorpher.applyWrites offsets loops start layers num).get? j =
        if start ≤ j ∧ j < start + num ∧ j < layers.length then
          some { layers.getD j default with
                 data := MeshMorpher.writeLoops
                   (MeshMorpher.packedUV offsets (j - start)) 0 loops
                   (layers.getD j default).data }
        else layers.get? j := by
  intro num
  induction num with
  | zero => intro layers j; rw [if_neg (by omega)]; rfl
  | succ n ih =>
    intro layers j
    rw [applyWrites_succ, get?_set, applyWrites_length]
    have hprev : (MeshMorpher.applyWrites offsets loops start layers n).getD
        (start + n) default = layers.getD (start + n) default := by
      rw [getD_eq_get?, getD_eq_get?, ih layers (start + n), if_neg (by omega)]
    rw [hprev]
    by_cases h2 : start + n = j ∧ start + n < layers.length
    · obtain ⟨hj, hlen⟩ := h2
      subst hj
      have harith : start + n - start = n := by omega
      rw [harith, if_pos (show start ≤ start + n ∧ start + n < start + (n + 1) ∧
        start + n < layers.length by omega), if_pos ⟨rfl, hlen⟩]
    · rw [if_neg h2, ih layers j]
      by_cases h3 : start ≤ j ∧ j < start + n ∧ j < layers.length
      · rw [if_pos h3, if_pos (by omega)]
      · rw [if_neg h3, if_neg (by omega)]

theorem pack_offsets_ok (me : MeshMorpher.MMesh) (offsets : List (List ℚ))
    (start : ℕ) (me' : MeshMorpher.MMesh)
    (hok : MeshMorpher.pack_offsets me offsets start = Except.ok me') :
    start + MeshMorpher.numUVNeeded offsets ≤ 8 ∧
    me' =
      { me with
        uv_layers :=
          MeshMorpher.applyWrites offsets me.loops start
            (me.uv_layers ++
              MeshMorpher.makeLayers me.loops.length
                (start + MeshMorpher.numUVNeeded offsets - me.uv_layers.length) 1 0)
            (MeshMorpher.numUVNeeded offsets) } := by
  by_cases hcap : 8 < start + MeshMorpher.numUVNeeded offsets
  · unfold MeshMorpher.pack_offsets at hok
    rw [if_pos hcap] at hok
    exact absurd hok (by simp)
  · unfold MeshMorpher.pack_offsets at hok
    rw [if_neg hcap] at hok
    refine ⟨by omega, ?_⟩
    injection hok with h
    exact h.symm

theorem layers1_data_length (me : MeshMorpher.MMesh)
    (hwf : ∀ L ∈ me.uv_layers, L.data.length = me.loops.length)
    (count j : ℕ) :
    ((me.uv_layers ++ MeshMorpher.makeLayers me.loops.length count 1 0).getD j
        default).data.length = me.loops.length ∨
    (me.uv_layers ++ MeshMorpher.makeLayers me.loops.length count 1 0).length ≤ j := by
  by_cases hj : j < (me.uv_layers ++
      MeshMorpher.makeLayers me.loops.length count 1 0).length
  · left
    rw [getD_eq_get?, get?_append]
    by_cases h : j < me.uv_layers.length
    · rw [if_pos h]
      cases hL : me.uv_layers.get? j with
      | none => rw [List.get?_eq_none] at hL; omega
      | some L =>
        simp only [Option.getD_some]
        exact hwf L (List.get?_mem hL)
    · rw [if_neg h]
      have hlt : j - me.uv_layers.length < count := by
        rw [List.length_append, makeLayers_length] at hj; omega
      cases hL : (MeshMorpher.makeLayers me.loops.length count 1 0).get?
          (j - me.uv_layers.length) with
      | none => rw [List.get?_eq_none, makeLayers_length] at hL; omega
      | some L =>
        simp only [Option.getD_some]
        rw [makeLayers_data _ _ _ _ L (List.get?_mem hL)]
        simp
  · right; omega

theorem pack_offsets_written (me : MeshMorpher.MMesh) (offsets : List (List ℚ))
    (start : ℕ) (me' : MeshMorpher.MMesh)
    (hok : MeshMorpher.pack_offsets me offsets start = Except.ok me')
    (hwf : ∀ L ∈ me.uv_layers, L.data.length = me.loops.length)
    (i : ℕ) (hi : i < MeshMorpher.numUVNeeded offsets)
    (l : ℕ) (hl : l < me.loops.length) :
    (me'.uv_layers.getD (start + i) default).data.get? l =
      some (MeshMorpher.packedUV offsets i (me.loops.getD l 0)) := by
  obtain ⟨hcap, hme⟩ := pack_offsets_ok me offsets start me' hok
  have hproj : me'.uv_layers =
      MeshMorpher.applyWrites offsets me.loops start
        (me.uv_layers ++
          MeshMorpher.makeLayers me.loops.length
            (start + MeshMorpher.numUVNeeded offsets - me.uv_layers.length) 1 0)
        (MeshMorpher.numUVNeeded offsets) := by
    rw [hme]
  have hlen1 : (me.uv_layers ++ MeshMorpher.makeLayers me.loops.length
      (start + MeshMorpher.numUVNeeded offsets - me.uv_layers.length) 1 0).length =
      me.uv_layers.length +
        (start + MeshMorpher.numUVNeeded offsets - me.uv_layers.length) := by
    rw [List.length_append, makeLayers_length]
  have hjlt : start + i < (me.uv_layers ++ MeshMorpher.makeLayers me.loops.length
      (start + MeshMorpher.numUVNeeded offsets - me.uv_layers.length) 1 0).length := by
    omega
  have hdl := layers1_data_length me hwf
    (start + MeshMorpher.numUVNeeded offsets - me.uv_layers.length) (start + i)
  rcases hdl with hdl | hdl
  · rw [hproj, getD_eq_get?, applyWrites_get?, if_pos ⟨by omega, by omega, hjlt⟩]
    simp only [Option.getD_some]
    have harith : start + i - start = i := by omega
    rw [harith, writeLoops_get?, if_pos ⟨by omega, by omega, by rw [hdl]; omega⟩]
    have harith2 : l - 0 = l := by omega
    rw [harith2]
  · omega

theorem packedUV_snd (offsets : List (List ℚ)) (i v : ℕ) :
    (MeshMorpher.packedUV offsets i v).2 =
      1 + (if i * 2 + 1 < offsets.length
            then (offsets.getD (i * 2 + 1) []).getD v 0 else 0) *
        (if ((i * 2 + 1) / 3) % 2 = 0 then (1 : ℚ) else -1) := rfl

theorem mult_code (c : ℕ) :
    (if (c / 3) % 2 = 0 then (1 : ℚ) else -1) = MeshMorpher.code_sign_multiplier c := by
  unfold MeshMorpher.code_sign_multiplier
  rcases Nat.mod_two_eq_zero_or_one (c / 3) with h | h <;> rw [h] <;> norm_num

/-- C10: every uv pair the shape-key packer writes carries a +1 bias on its V
component: the written pair is (cU * m1, 1 + cV * m2), so a zero V channel is
stored as V = 1, and on a trailing layer whose second channel index falls
past the channel list the V component is exactly 1 for every loop. -/
theorem C10_v_bias (me : MeshMorpher.MMesh) (offsets : List (List ℚ))
    (start : ℕ) (me' : MeshMorpher.MMesh)
    (hok : MeshMorpher.pack_offsets me offsets start = Except.ok me')
    (hwf : ∀ L ∈ me.uv_layers, L.data.length = me.loops.length)
    (i : ℕ) (hi : i < MeshMorpher.numUVNeeded offsets)
    (l : ℕ) (hl : l < me.loops.length) :
    (me'.uv_layers.getD (start + i) default).data.get? l =
      some ((offsets.getD (i * 2) []).getD (me.loops.getD l 0) 0 *
          (if ((i * 2) / 3) % 2 = 0 then (1 : ℚ) else -1),
        1 + (if i * 2 + 1 < offsets.length
              then (offsets.getD (i * 2 + 1) []).getD (me.loops.getD l 0) 0
              else 0) *
          (if ((i * 2 + 1) / 3) % 2 = 0 then (1 : ℚ) else -1)) ∧
    (offsets.length ≤ i * 2 + 1 →
      (MeshMorpher.packedUV offsets i (me.loops.getD l 0)).2 = 1) ∧
    ((offsets.getD (i * 2 + 1) []).getD (me.loops.getD l 0) 0 = 0 →
      (MeshMorpher.packedUV offsets i (me.loops.getD l 0)).2 = 1) := by
  refine ⟨?_, ?_, ?_⟩
  · rw [pack_offsets_written me offsets start me' hok hwf i hi l hl]
    rfl
  · intro htrail
    rw [packedUV_snd, if_neg (by omega)]
    split_ifs <;> norm_num
  · intro hzero
    by_cases hV : i * 2 + 1 < offsets.length
    · rw [packedUV_snd, if_pos hV, hzero]
      split_ifs <;> norm_num
    · rw [packedUV_snd, if_neg hV]
      split_ifs <;> norm_num

/-- Witness for C10 at the one-shape-key run: the trailing layer (slot 1)
packs the odd final channel, so its stored pair is (4 * 1, 1 + 0 * -1),
with V equal to exactly 1. -/
theorem C10_witness :
    (exMeshPr.uv_layers.getD 1 default).data.get? 0 =
      some ((4 : ℚ) * 1, 1 + (0 : ℚ) * (-1)) ∧
    (MeshMorpher.packedUV exOffs1 1 (exMeshP.loops.getD 0 0)).2 = 1 := by
  have hok : MeshMorpher.pack_offsets exMeshP exOffs1 0 = Except.ok exMeshPr := by
    norm_num [MeshMorpher.pack_offsets, MeshMorpher.numUVNeeded, exMeshP, exOffs1,
      exMeshPr, MeshMorpher.applyWrites, MeshMorpher.makeLayers,
      MeshMorpher.writeLoops, MeshMorpher.packedUV, MeshMorpher.axisChar,
      List.range_succ]
    decide
  have h := C10_v_bias exMeshP exOffs1 0 exMeshPr hok
    (by intro L hL; simp [exMeshP] at hL) 1 (by decide) 0 (by decide)
  exact ⟨h.1, h.2.1 (by decide)⟩

/-- C6 (corrected): the sign multiplier the packer applies to the flat
channel at position c is -1 exactly when c div 3 is odd (it alternates per
shape-key triple, uniformly within a triple): layer slot i applies it at
channel positions 2i (U) and 2i+1 (V).  The spec's formula - minus one when
(p*2) div 3 is odd - is a different pattern. -/
theorem C6_sign_multiplier_amended (me : MeshMorpher.MMesh)
    (offsets : List (List ℚ)) (start : ℕ) (me' : MeshMorpher.MMesh)
    (hok : MeshMorpher.pack_offsets me offsets start = Except.ok me')
    (hwf : ∀ L ∈ me.uv_layers, L.data.length = me.loops.length)
    (i : ℕ) (hi : i < MeshMorpher.numUVNeeded offsets)
    (l : ℕ) (hl : l < me.loops.length) :
    (me'.uv_layers.getD (start + i) default).data.get? l =
      some ((offsets.getD (i * 2) []).getD (me.loops.getD l 0) 0 *
          MeshMorpher.code_sign_multiplier (i * 2),
        1 + (if i * 2 + 1 < offsets.length
              then (offsets.getD (i * 2 + 1) []).getD (me.loops.getD l 0) 0
              else 0) *
          MeshMorpher.code_sign_multiplier (i * 2 + 1)) ∧
    (∀ c c', c / 3 = c' / 3 →
      MeshMorpher.code_sign_multiplier c = MeshMorpher.code_sign_multiplier c') ∧
    (∀ c, MeshMorpher.code_sign_multiplier (c + 3) =
      - MeshMorpher.code_sign_multiplier c) := by
  refine ⟨?_, ?_, ?_⟩
  · rw [pack_offsets_written me offsets start me' hok hwf i hi l hl]
    unfold MeshMorpher.packedUV
    rw [← mult_code, ← mult_code]
  · intro c c' h
    unfold MeshMorpher.code_sign_multiplier
    rw [h]
  · intro c
    unfold MeshMorpher.code_sign_multiplier
    have h3 : (c + 3) / 3 = c / 3 + 1 := by omega
    rw [h3]
    rcases Nat.mod_two_eq_zero_or_one (c / 3) with h | h
    · rw [if_pos (by omega), if_neg (by omega)]
    · rw [if_neg (by omega), if_pos h]
      norm_num

/-- Witness for the amended C6 at the two-shape-key run: layer slot 1's
written pair uses the code multipliers at channels 2 and 3. -/
theorem C6_witness :
    (exMeshPr6.uv_layers.getD 1 default).data.get? 0 =
      some ((1 : ℚ) * MeshMorpher.code_sign_multiplier 2,
        1 + (1 : ℚ) * MeshMorpher.code_sign_multiplier 3) ∧
    MeshMorpher.code_sign_multiplier 5 = - MeshMorpher.code_sign_multiplier 2 := by
  have hok : MeshMorpher.pack_offsets exMeshP exOffs6 0 = Except.ok exMeshPr6 := by
    norm_num [MeshMorpher.pack_offsets, MeshMorpher.numUVNeeded, exMeshP, exOffs6,
      exMeshPr6, MeshMorpher.applyWrites, MeshMorpher.makeLayers,
      MeshMorpher.writeLoops, MeshMorpher.packedUV, MeshMorpher.axisChar,
      List.range_succ]
    decide
  have h := C6_sign_multiplier_amended exMeshP exOffs6 0 exMeshPr6 hok
    (by intro L hL; simp [exMeshP] at hL) 1 (by decide) 0 (by decide)
  exact ⟨h.1, h.2.2 2⟩

/-- Counterexample to C6 as stated: with every channel value 1, the packer
writes (1, 0) at layer slot 1 (channels 2 and 3: multipliers +1 and -1),
while the spec's formula, read at channel positions 2 and 3, predicts
multipliers -1 and +1 and hence the pair (-1, 2). -/
theorem C6_counterexample :
    MeshMorpher.pack_offsets exMeshP exOffs6 0 = Except.ok exMeshPr6 ∧
    (exMeshPr6.uv_layers.getD 1 default).data.get? 0 = some (1, 0) ∧
    MeshMorpher.spec_sign_multiplier 2 = -1 ∧
    MeshMorpher.spec_sign_multiplier 3 = 1 ∧
    ((1 : ℚ) * MeshMorpher.spec_sign_multiplier 2,
      1 + (1 : ℚ) * MeshMorpher.spec_sign_multiplier 3) = (-1, 2) ∧
    ((1 : ℚ), (0 : ℚ)) ≠ ((-1 : ℚ), (2 : ℚ)) := by
  refine ⟨?_, rfl, rfl, rfl, by norm_num [MeshMorpher.spec_sign_multiplier], by norm_num⟩
  norm_num [MeshMorpher.pack_offsets, MeshMorpher.numUVNeeded, exMeshP, exOffs6,
    exMeshPr6, MeshMorpher.applyWrites, MeshMorpher.makeLayers,
    MeshMorpher.writeLoops, MeshMorpher.packedUV, MeshMorpher.axisChar,
    List.range_succ]
  decide

/-! Mutation behaviour of the shape-key operator. -/

/-- C3 (corrected): the three pre-validation failures (bad scene units,
missing shape keys, insufficient shape keys) cancel the pass with the mesh
untouched, and a capacity failure inside pack_offsets itself writes no UV
data; but the pass is not atomic - when normal baking is enabled, a later
capacity failure leaves the already-baked vertex colors behind (see the
counterexample), so a partial-success state exists. -/
theorem C3_validation_no_mutation :
    (∀ (units : MeshMorpher.MUnits) (me : MeshMorpher.MMesh)
        (p : MeshMorpher.MProps),
      (units.system ≠ "METRIC" ∨ MeshMorpher.round2 units.scale_length ≠ 1/100) →
      MeshMorpher.execute units me p = (MeshMorpher.MResult.CANCELLED, me)) ∧
    (∀ (units : MeshMorpher.MUnits) (me : MeshMorpher.MMesh)
        (p : MeshMorpher.MProps),
      me.shape_keys = none →
      MeshMorpher.execute units me p = (MeshMorpher.MResult.CANCELLED, me)) ∧
    (∀ (units : MeshMorpher.MUnits) (me : MeshMorpher.MMesh)
        (p : MeshMorpher.MProps) (keys : List MeshMorpher.MShapeKey),
      me.shape_keys = some keys → keys.length < 1 + p.num_shape_keys →
      MeshMorpher.execute units me p = (MeshMorpher.MResult.CANCELLED, me)) ∧
    (∀ (me : MeshMorpher.MMesh) (offsets : List (List ℚ)) (start : ℕ),
      8 < start + MeshMorpher.numUVNeeded offsets →
      MeshMorpher.pack_offsets me offsets start =
        Except.error
          ("Not enough UV layers to store the specified number of shape keys.", me)) := by
  refine ⟨?_, ?_, ?_, ?_⟩
  · intro units me p h
    unfold MeshMorpher.execute
    rw [if_pos h]
  · intro units me p h
    unfold MeshMorpher.execute
    by_cases hu : units.system ≠ "METRIC" ∨
      MeshMorpher.round2 units.scale_length ≠ 1/100
    · rw [if_pos hu]
    · rw [if_neg hu, h]
  · intro units me p keys h hlt
    unfold MeshMorpher.execute
    by_cases hu : units.system ≠ "METRIC" ∨
      MeshMorpher.round2 units.scale_length ≠ 1/100
    · rw [if_pos hu]
    · rw [if_neg hu, h]
      simp only []
      rw [if_pos hlt]
  · intro me offsets start h
    unfold MeshMorpher.pack_offsets
    rw [if_pos h]

/-- Witness for the amended C3: a non-metric unit system cancels the run
with the mesh unchanged, and a direct capacity overflow in pack_offsets
returns the untouched mesh. -/
theorem C3_witness :
    MeshMorpher.execute exUnitsBad exMeshM exPropsCap =
      (MeshMorpher.MResult.CANCELLED, exMeshM) ∧
    MeshMorpher.pack_offsets exMeshP exOffs1 8 =
      Except.error
        ("Not enough UV layers to store the specified number of shape keys.", exMeshP) := by
  have h := C3_validation_no_mutation
  exact ⟨h.1 exUnitsBad exMeshM exPropsCap (Or.inl (by decide)),
         h.2.2.2 exMeshP exOffs1 8 (by decide)⟩

/-- Counterexample to C3 as stated: a run with normal baking enabled that
then fails the UV capacity check is cancelled, yet its vertex colors have
already been created and written - a failing pass with output mutation, so
the pass is not atomic. -/
theorem C3_counterexample :
    MeshMorpher.execute exUnits exMeshM exPropsCap =
      (MeshMorpher.MResult.CANCELLED, exMeshM1) ∧
    exMeshM1.vertex_colors ≠ exMeshM.vertex_colors ∧
    exMeshM1.uv_layers = exMeshM.uv_layers := by
  refine ⟨?_, by simp [exMeshM1, exMeshM], rfl⟩
  norm_num [MeshMorpher.execute, MeshMorpher.round2, MeshMorpher.pack_normals,
    MeshMorpher.pack_normals_write, MeshMorpher.get_shape_key_offsets,
    MeshMorpher.pack_offsets, MeshMorpher.numUVNeeded, exUnits, exMeshM,
    exMeshM1, exPropsCap, Vec3.sub, List.range_succ]

/-! The VAT uv side channel: dictionary characterisation. -/

namespace VertexAnimation

theorem vat_go_dict_persist (act : ℕ → Bool) (T : ℕ) :
    ∀ (loops : List ℕ) (l pos : ℕ) (dict : List (ℕ × (ℚ × ℚ)))
      (data : List (ℚ × ℚ)) (v : ℕ) (uv : ℚ × ℚ),
      dict.lookup v = some uv →
      ((vat_go act T loops l pos dict data).1).lookup v = some uv := by
  intro loops
  induction loops with
  | nil => intro l pos dict data v uv h; exact h
  | cons w rest ih =>
    intro l pos dict data v uv h
    cases hw : dict.lookup w with
    | some uvw =>
      simp only [vat_go, hw]
      exact ih _ _ _ _ _ _ h
    | none =>
      simp only [vat_go, hw]
      by_cases hact : act w = true
      · rw [if_pos hact]
        exact ih _ _ _ _ _ _ (lookup_append_some _ _ _ _ h)
      · rw [if_neg hact]
        exact ih _ _ _ _ _ _ (lookup_append_some _ _ _ _ h)

theorem freshFirsts_congr :
    ∀ (loops s1 s2 : List ℕ), (∀ x, x ∈ s1 ↔ x ∈ s2) →
      freshFirsts s1 loops = freshFirsts s2 loops := by
  intro loops
  induction loops with
  | nil => intro s1 s2 h; rfl
  | cons v rest ih =>
    intro s1 s2 h
    unfold freshFirsts
    by_cases hv : v ∈ s1
    · rw [if_pos hv, if_pos ((h v).mp hv)]
      exact ih s1 s2 h
    · rw [if_neg hv, if_neg (fun hc => hv ((h v).mpr hc))]
      congr 1
      exact ih (v :: s1) (v :: s2) (by intro x; simp [h x])

theorem mem_freshFirsts :
    ∀ (loops seen : List ℕ) (v : ℕ),
      v ∈ freshFirsts seen loops ↔ (v ∈ loops ∧ v ∉ seen) := by
  intro loops
  induction loops with
  | nil => intro seen v; simp [freshFirsts]
  | cons w rest ih =>
    intro seen v
    unfold freshFirsts
    by_cases hw : w ∈ seen
    · rw [if_pos hw, ih]
      constructor
      · rintro ⟨h1, h2⟩; exact ⟨List.mem_cons_of_mem w h1, h2⟩
      · rintro ⟨h1, h2⟩
        rcases List.mem_cons.mp h1 with h | h
        · subst h; exact absurd hw h2
        · exact ⟨h, h2⟩
    · rw [if_neg hw]
      constructor
      · intro h
        rcases List.mem_cons.mp h with h | h
        · subst h; exact ⟨List.mem_cons_self v rest, hw⟩
        · obtain ⟨h1, h2⟩ := (ih (w :: seen) v).mp h
          refine ⟨List.mem_cons_of_mem w h1, ?_⟩
          intro hc; exact h2 (List.mem_cons_of_mem w hc)
      · rintro ⟨h1, h2⟩
        rcases List.mem_cons.mp h1 with h | h
        · subst h; exact List.mem_cons_self v _
        · by_cases hvw : v = w
          · subst hvw; exact List.mem_cons_self v _
          · exact List.mem_cons_of_mem _
              ((ih (w :: seen) v).mpr ⟨h, by simp [hvw, h2]⟩)

theorem freshFirsts_nodup :
    ∀ (loops seen : List ℕ), (freshFirsts seen loops).Nodup := by
  intro loops
  induction loops with
  | nil => intro seen; exact List.nodup_nil
  | cons w rest ih =>
    intro seen
    unfold freshFirsts
    by_cases hw : w ∈ seen
    · rw [if_pos hw]; exact ih seen
    · rw [if_neg hw]
      refine List.Nodup.cons ?_ (ih (w :: seen))
      intro hc
      exact ((mem_freshFirsts rest (w :: seen) w).mp hc).2 (List.mem_cons_self w seen)

theorem freshFirsts_subset :
    ∀ (loops seen : List ℕ) (v : ℕ), v ∈ freshFirsts seen loops → v ∈ loops := by
  intro loops seen v h
  exact ((mem_freshFirsts loops seen v).mp h).1

theorem rankIn_cons_ne (A : List ℕ) (w v : ℕ) (h : w ≠ v) :
    rankIn (w :: A) v = rankIn A v + 1 := by
  show (if w = v then 0 else rankIn A v + 1) = rankIn A v + 1
  rw [if_neg h]

theorem rankIn_lt_length :
    ∀ (A : List ℕ) (v : ℕ), v ∈ A → rankIn A v < A.length := by
  intro A
  induction A with
  | nil => intro v h; cases h
  | cons w A ih =>
    intro v h
    unfold rankIn
    by_cases hw : w = v
    · rw [if_pos hw]; simp
    · rw [if_neg hw]
      have hv : v ∈ A := by
        rcases List.mem_cons.mp h with h1 | h1
        · exact absurd h1.symm hw
        · exact h1
      have := ih v hv
      simp only [List.length_cons]
      omega

theorem getD_mem_of_lt :
    ∀ (l : List ℕ) (n : ℕ) (d : ℕ), n < l.length → l.getD n d ∈ l := by
  intro l
  induction l with
  | nil => intro n d h; simp at h
  | cons x xs ih =>
    intro n d h
    cases n with
    | zero => exact List.mem_cons_self x xs
    | succ n =>
      exact List.mem_cons_of_mem x (ih n d (by simpa using h))

theorem nodup_lt_length_le (l : List ℕ) (N : ℕ) (hnd : l.Nodup)
    (hb : ∀ x ∈ l, x < N) : l.length ≤ N := by
  have h1 : l.toFinset.card = l.length := List.toFinset_card_of_nodup hnd
  have h2 : l.toFinset ⊆ Finset.range N := by
    intro x hx
    rw [Finset.mem_range]
    exact hb x (List.mem_toFinset.mp hx)
  have := Finset.card_le_card h2
  rw [h1, Finset.card_range] at this
  exact this

theorem nodup_subset_length_le (l1 l2 : List ℕ) (h1 : l1.Nodup) (h2 : l2.Nodup)
    (hsub : ∀ x ∈ l1, x ∈ l2) : l1.length ≤ l2.length := by
  have e1 : l1.toFinset.card = l1.length := List.toFinset_card_of_nodup h1
  have e2 : l2.toFinset.card = l2.length := List.toFinset_card_of_nodup h2
  have hs : l1.toFinset ⊆ l2.toFinset := by
    intro x hx
    exact List.mem_toFinset.mpr (hsub x (List.mem_toFinset.mp hx))
  have := Finset.card_le_card hs
  omega

theorem vat_go_dict_fresh (act : ℕ → Bool) (T : ℕ) :
    ∀ (loops : List ℕ) (l pos : ℕ) (dict : List (ℕ × (ℚ × ℚ)))
      (data : List (ℚ × ℚ)) (v : ℕ),
      dict.lookup v = none → v ∈ loops →
      ((vat_go act T loops l pos dict data).1).lookup v =
        some (if act v = true then
          ((((pos + rankIn ((freshFirsts (dict.map Prod.fst) loops).filter
                (fun w => act w)) v : ℕ) : ℚ) + 3/2) / ((T : ℚ) + 1), (1/2 : ℚ))
        else ((1/2 : ℚ) / ((T : ℚ) + 1), (1/2 : ℚ))) := by
  intro loops
  induction loops with
  | nil => intro l pos dict data v hv hmem; cases hmem
  | cons w rest ih =>
    intro l pos dict data v hv hmem
    cases hw : dict.lookup w with
    | some uvw =>
      have hwk : w ∈ dict.map Prod.fst := by
        by_contra hc
        rw [(lookup_eq_none_iff dict w).mpr hc] at hw
        cases hw
      have hvw : v ≠ w := by
        intro e; rw [e, hw] at hv; cases hv
      have hvrest : v ∈ rest := by
        rcases List.mem_cons.mp hmem with h | h
        · exact absurd h hvw
        · exact h
      have hff : freshFirsts (dict.map Prod.fst) (w :: rest) =
          freshFirsts (dict.map Prod.fst) rest := by
        show (if w ∈ dict.map Prod.fst then freshFirsts (dict.map Prod.fst) rest
          else w :: freshFirsts (w :: dict.map Prod.fst) rest) =
          freshFirsts (dict.map Prod.fst) rest
        rw [if_pos hwk]
      simp only [vat_go, hw]
      rw [ih _ _ _ _ _ hv hvrest, hff]
    | none =>
      have hwk : w ∉ dict.map Prod.fst := (lookup_eq_none_iff dict w).mp hw
      have hff : freshFirsts (dict.map Prod.fst) (w :: rest) =
          w :: freshFirsts (w :: dict.map Prod.fst) rest := by
        show (if w ∈ dict.map Prod.fst then freshFirsts (dict.map Prod.fst) rest
          else w :: freshFirsts (w :: dict.map Prod.fst) rest) =
          w :: freshFirsts (w :: dict.map Prod.fst) rest
        rw [if_neg hwk]
      simp only [vat_go, hw]
      by_cases hact : act w = true
      · rw [if_pos hact]
        by_cases hvw : v = w
        · subst hvw
          have hlook : (dict ++
              [(v, ((((pos : ℚ) + 3/2) / ((T : ℚ) + 1), (1/2 : ℚ))))]).lookup v =
              some ((((pos : ℚ) + 3/2) / ((T : ℚ) + 1), (1/2 : ℚ))) := by
            rw [lookup_append_none _ _ _ hv]
            simp [List.lookup]
          rw [vat_go_dict_persist act T rest _ _ _ _ _ _ hlook, hff,
            List.filter_cons_of_pos (by simpa using hact), if_pos hact]
          have hrank : rankIn (v :: (freshFirsts (v :: dict.map Prod.fst)
              rest).filter (fun w => act w)) v = 0 := by
            unfold rankIn; rw [if_pos rfl]
          rw [hrank]
          norm_num
        · have hv' : (dict ++
              [(w, ((((pos : ℚ) + 3/2) / ((T : ℚ) + 1), (1/2 : ℚ))))]).lookup v =
              none := by
            rw [lookup_append_none _ _ _ hv]
            have hbeq : (v == w) = false := by simpa using hvw
            simp [List.lookup, hbeq]
          have hvrest : v ∈ rest := by
            rcases List.mem_cons.mp hmem with h | h
            · exact absurd h hvw
            · exact h
          rw [ih _ _ _ _ _ hv' hvrest]
          have hkeys : freshFirsts ((dict ++
              [(w, ((((pos : ℚ) + 3/2) / ((T : ℚ) + 1), (1/2 : ℚ))))]).map
                Prod.fst) rest =
              freshFirsts (w :: dict.map Prod.fst) rest := by
            apply freshFirsts_congr
            intro x
            simp [or_comm]
          rw [hkeys, hff, List.filter_cons_of_pos (by simpa using hact),
            rankIn_cons_ne _ _ _ (fun e => hvw e.symm)]
          by_cases hactv : act v = true
          · rw [if_pos hactv, if_pos hactv]
            have harith : pos + 1 + rankIn ((freshFirsts (w :: dict.map Prod.fst)
                rest).filter (fun w => act w)) v =
                pos + (rankIn ((freshFirsts (w :: dict.map Prod.fst)
                  rest).filter (fun w => act w)) v + 1) := by omega
            rw [harith]
          · rw [if_neg hactv, if_neg hactv]
      · rw [if_neg hact]
        by_cases hvw : v = w
        · subst hvw
          have hlook : (dict ++
              [(v, (((1/2 : ℚ) / ((T : ℚ) + 1), (1/2 : ℚ))))]).lookup v =
              some ((((1/2 : ℚ) / ((T : ℚ) + 1), (1/2 : ℚ)))) := by
            rw [lookup_append_none _ _ _ hv]
            simp [List.lookup]
          rw [vat_go_dict_persist act T rest _ _ _ _ _ _ hlook, if_neg hact]
        · have hv' : (dict ++
              [(w, (((1/2 : ℚ) / ((T : ℚ) + 1), (1/2 : ℚ))))]).lookup v =
              none := by
            rw [lookup_append_none _ _ _ hv]
            have hbeq : (v == w) = false := by simpa using hvw
            simp [List.lookup, hbeq]
          have hvrest : v ∈ rest := by
            rcases List.mem_cons.mp hmem with h | h
            · exact absurd h hvw
            · exact h
          rw [ih _ _ _ _ _ hv' hvrest]
          have hkeys : freshFirsts ((dict ++
              [(w, (((1/2 : ℚ) / ((T : ℚ) + 1), (1/2 : ℚ))))]).map
                Prod.fst) rest =
              freshFirsts (w :: dict.map Prod.fst) rest := by
            apply freshFirsts_congr
            intro x
            simp [or_comm]
          rw [hkeys, hff, List.filter_cons_of_neg (by simpa using hact)]

theorem vat_go_data (act : ℕ → Bool) (T : ℕ) :
    ∀ (loops : List ℕ) (l pos : ℕ) (dict : List (ℕ × (ℚ × ℚ)))
      (data : List (ℚ × ℚ)) (j : ℕ),
      ((vat_go act T loops l pos dict data).2).get? j =
        if l ≤ j ∧ j < l + loops.length ∧ j < data.length then
          ((vat_go act T loops l pos dict data).1).lookup (loops.getD (j - l) 0)
        else data.get? j := by
  intro loops
  induction loops with
  | nil =>
    intro l pos dict data j
    rw [if_neg (by simp only [List.length_nil]; omega)]
    rfl
  | cons w rest ih =>
    intro l pos dict data j
    cases hw : dict.lookup w with
    | some uvw =>
      simp only [vat_go, hw]
      rw [ih, List.length_set]
      by_cases h1 : l + 1 ≤ j ∧ j < l + 1 + rest.length ∧ j < data.length
      · rw [if_pos h1, if_pos (by simp only [List.length_cons]; omega)]
        have hj : j - l = (j - (l + 1)) + 1 := by omega
        rw [hj]
        rfl
      · rw [if_neg h1, get?_set]
        by_cases h2 : l = j ∧ l < data.length
        · obtain ⟨hjl, hld⟩ := h2
          subst hjl
          rw [if_pos ⟨rfl, hld⟩,
            if_pos ⟨le_refl l, by simp only [List.length_cons]; omega, hld⟩]
          have hj0 : l - l = 0 := by omega
          rw [hj0]
          exact (vat_go_dict_persist act T rest _ _ _ _ _ _ hw).symm
        · rw [if_neg h2, if_neg (by simp only [List.length_cons]; omega)]
    | none =>
      have hbase : ∀ uvw : ℚ × ℚ,
          (dict ++ [(w, uvw)]).lookup w = some uvw := by
        intro uvw
        rw [lookup_append_none _ _ _ hw]
        simp [List.lookup]
      simp only [vat_go, hw]
      by_cases hact : act w = true
      · rw [if_pos hact, ih, List.length_set]
        by_cases h1 : l + 1 ≤ j ∧ j < l + 1 + rest.length ∧ j < data.length
        · rw [if_pos h1, if_pos (by simp only [List.length_cons]; omega)]
          have hj : j - l = (j - (l + 1)) + 1 := by omega
          rw [hj]
          rfl
        · rw [if_neg h1, get?_set]
          by_cases h2 : l = j ∧ l < data.length
          · obtain ⟨hjl, hld⟩ := h2
            subst hjl
            rw [if_pos ⟨rfl, hld⟩,
              if_pos ⟨le_refl l, by simp only [List.length_cons]; omega, hld⟩]
            have hj0 : l - l = 0 := by omega
            rw [hj0]
            exact (vat_go_dict_persist act T rest _ _ _ _ _ _ (hbase _)).symm
          · rw [if_neg h2, if_neg (by simp only [List.length_cons]; omega)]
      · rw [if_neg hact, ih, List.length_set]
        by_cases h1 : l + 1 ≤ j ∧ j < l + 1 + rest.length ∧ j < data.length
        · rw [if_pos h1, if_pos (by simp only [List.length_cons]; omega)]
          have hj : j - l = (j - (l + 1)) + 1 := by omega
          rw [hj]
          rfl
        · rw [if_neg h1, get?_set]
          by_cases h2 : l = j ∧ l < data.length
          · obtain ⟨hjl, hld⟩ := h2
            subst hjl
            rw [if_pos ⟨rfl, hld⟩,
              if_pos ⟨le_refl l, by simp only [List.length_cons]; omega, hld⟩]
            have hj0 : l - l = 0 := by omega
            rw [hj0]
            exact (vat_go_dict_persist act T rest _ _ _ _ _ _ (hbase _)).symm
          · rw [if_neg h2, if_neg (by simp only [List.length_cons]; omega)]

theorem findVAT_get? :
    ∀ (l : List AUV) (i : ℕ), findVAT l = some i → ∃ L, l.get? i = some L := by
  intro l
  induction l with
  | nil => intro i h; cases h
  | cons L rest ih =>
    intro i h
    unfold findVAT at h
    by_cases hn : L.name = "VAT"
    · rw [if_pos hn] at h
      injection h with h
      subst h
      exact ⟨L, rfl⟩
    · rw [if_neg hn] at h
      cases hf : findVAT rest with
      | none => rw [hf] at h; cases h
      | some k =>
        rw [hf] at h
        simp only [Option.map_some'] at h
        obtain ⟨L', hL'⟩ := ih k hf
        have hki : k + 1 = i := by injection h
        subst hki
        exact ⟨L', hL'⟩

end VertexAnimation

/-- C8: the VAT uv side channel.  With no resolvable vertex group all
vertices are active and the total is the vertex count; with a resolved group
the total is the member count and activity is group membership.  Every loop
of an active vertex receives U = (j + 1.5)/(T + 1) where j is the vertex's
rank in first-encounter order among active vertices, with V = 0.5; every
loop of an inactive vertex is pinned to U = 0.5/(T + 1).  The active U
values are strictly inside (0, 1), distinct ranks give distinct U, active
ranks are below the active count (which is at most T), and the pinned U is
strictly below every active U. -/
theorem C8_uv_side_channel (ob : VertexAnimation.AObj) (gname : Option String)
    (hlen : ∀ U ∈ ob.uv_layers, U.data.length = ob.loops.length)
    (hvb : ∀ v ∈ ob.loops, v < ob.vertices.length) :
    (∀ l, l < ob.loops.length →
      ((VertexAnimation.update_uv_layer ob gname).2).data.get? l =
        some (if VertexAnimation.vat_active ob gname (ob.loops.getD l 0) = true then
          (((VertexAnimation.rankIn (VertexAnimation.vatActiveFirsts ob gname)
              (ob.loops.getD l 0) : ℚ) + 3/2) /
            ((VertexAnimation.vat_total ob gname : ℚ) + 1), (1/2 : ℚ))
        else ((1/2 : ℚ) / ((VertexAnimation.vat_total ob gname : ℚ) + 1), (1/2 : ℚ)))) ∧
    (VertexAnimation.resolve_group ob gname = none →
      VertexAnimation.vat_total ob gname = ob.vertices.length ∧
      ∀ v, VertexAnimation.vat_active ob gname v = true) ∧
    (∀ g, VertexAnimation.resolve_group ob gname = some g →
      VertexAnimation.vat_total ob gname =
        (VertexAnimation.group_members ob g).length ∧
      ∀ v, VertexAnimation.vat_active ob gname v =
        decide (v ∈ VertexAnimation.group_members ob g)) ∧
    (VertexAnimation.vatActiveFirsts ob gname).length ≤
      VertexAnimation.vat_total ob gname ∧
    (∀ v ∈ ob.loops, VertexAnimation.vat_active ob gname v = true →
      VertexAnimation.rankIn (VertexAnimation.vatActiveFirsts ob gname) v <
        (VertexAnimation.vatActiveFirsts ob gname).length) ∧
    (∀ j : ℕ, j < (VertexAnimation.vatActiveFirsts ob gname).length →
      0 < ((j : ℚ) + 3/2) / ((VertexAnimation.vat_total ob gname : ℚ) + 1) ∧
      ((j : ℚ) + 3/2) / ((VertexAnimation.vat_total ob gname : ℚ) + 1) < 1) ∧
    (∀ j j' : ℕ, j ≠ j' →
      ((j : ℚ) + 3/2) / ((VertexAnimation.vat_total ob gname : ℚ) + 1) ≠
        ((j' : ℚ) + 3/2) / ((VertexAnimation.vat_total ob gname : ℚ) + 1)) ∧
    (∀ j : ℕ, (1/2 : ℚ) / ((VertexAnimation.vat_total ob gname : ℚ) + 1) <
      ((j : ℚ) + 3/2) / ((VertexAnimation.vat_total ob gname : ℚ) + 1)) := by
  have hAT : (VertexAnimation.vatActiveFirsts ob gname).length ≤
      VertexAnimation.vat_total ob gname := by
    unfold VertexAnimation.vatActiveFirsts
    cases hres : VertexAnimation.resolve_group ob gname with
    | none =>
      have hact : ∀ v, VertexAnimation.vat_active ob gname v = true := by
        intro v; unfold VertexAnimation.vat_active; rw [hres]
      have hAeq : (VertexAnimation.freshFirsts [] ob.loops).filter
          (fun w => VertexAnimation.vat_active ob gname w) =
          VertexAnimation.freshFirsts [] ob.loops := by
        apply List.filter_eq_self.mpr
        intro a _
        exact hact a
      rw [hAeq]
      have hT : VertexAnimation.vat_total ob gname = ob.vertices.length := by
        unfold VertexAnimation.vat_total; rw [hres]
      rw [hT]
      apply VertexAnimation.nodup_lt_length_le _ _ (VertexAnimation.freshFirsts_nodup _ _)
      intro x hx
      exact hvb x (VertexAnimation.freshFirsts_subset _ _ _ hx)
    | some g =>
      have hT : VertexAnimation.vat_total ob gname =
          (VertexAnimation.group_members ob g).length := by
        unfold VertexAnimation.vat_total; rw [hres]
      rw [hT]
      apply VertexAnimation.nodup_subset_length_le
      · exact (VertexAnimation.freshFirsts_nodup _ _).filter _
      · exact (List.nodup_range _).filter _
      · intro x hx
        have hm := List.mem_filter.mp hx
        have hactx := hm.2
        unfold VertexAnimation.vat_active at hactx
        rw [hres] at hactx
        exact of_decide_eq_true hactx
  have hTpos : (0 : ℚ) < (VertexAnimation.vat_total ob gname : ℚ) + 1 := by
    positivity
  refine ⟨?_, ?_, ?_, hAT, ?_, ?_, ?_, ?_⟩
  · intro l hl
    have key : ∀ d0 : List (ℚ × ℚ), d0.length = ob.loops.length →
        ((VertexAnimation.vat_go (VertexAnimation.vat_active ob gname)
            (VertexAnimation.vat_total ob gname) ob.loops 0 0 [] d0).2).get? l =
          some (if VertexAnimation.vat_active ob gname (ob.loops.getD l 0) = true then
            (((VertexAnimation.rankIn (VertexAnimation.vatActiveFirsts ob gname)
                (ob.loops.getD l 0) : ℚ) + 3/2) /
              ((VertexAnimation.vat_total ob gname : ℚ) + 1), (1/2 : ℚ))
          else ((1/2 : ℚ) /
            ((VertexAnimation.vat_total ob gname : ℚ) + 1), (1/2 : ℚ))) := by
      intro d0 hd0
      rw [VertexAnimation.vat_go_data, if_pos ⟨by omega, by omega, by omega⟩]
      have hmem : ob.loops.getD (l - 0) 0 ∈ ob.loops := by
        rw [Nat.sub_zero]
        exact VertexAnimation.getD_mem_of_lt _ _ _ hl
      rw [VertexAnimation.vat_go_dict_fresh
        (VertexAnimation.vat_active ob gname) (VertexAnimation.vat_total ob gname)
        ob.loops 0 0 [] d0 (ob.loops.getD (l - 0) 0) rfl hmem]
      simp only [Nat.sub_zero, List.map_nil, Nat.zero_add]
      rfl
    unfold VertexAnimation.update_uv_layer
    cases hf : VertexAnimation.findVAT ob.uv_layers with
    | some idx =>
      obtain ⟨L, hL⟩ := VertexAnimation.findVAT_get? _ _ hf
      have hd0 : (ob.uv_layers.getD idx default).data.length = ob.loops.length := by
        rw [getD_eq_get?, hL]
        exact hlen L (List.get?_mem hL)
      exact key _ hd0
    | none =>
      exact key _ (List.length_replicate _ _)
  · intro h
    constructor
    · unfold VertexAnimation.vat_total; rw [h]
    · intro v; unfold VertexAnimation.vat_active; rw [h]
  · intro g h
    constructor
    · unfold VertexAnimation.vat_total; rw [h]
    · intro v; unfold VertexAnimation.vat_active; rw [h]
  · intro v hv hactv
    apply VertexAnimation.rankIn_lt_length
    unfold VertexAnimation.vatActiveFirsts
    apply List.mem_filter.mpr
    refine ⟨?_, hactv⟩
    exact (VertexAnimation.mem_freshFirsts _ _ _).mpr ⟨hv, by simp⟩
  · intro j hj
    constructor
    · positivity
    · rw [div_lt_one hTpos]
      have hjT : j < VertexAnimation.vat_total ob gname := by omega
      have : (j : ℚ) + 1 ≤ (VertexAnimation.vat_total ob gname : ℚ) := by
        exact_mod_cast hjT
      linarith
  · intro j j' hne heq
    rw [div_eq_div_iff (by positivity) (by positivity)] at heq
    have h2 := mul_right_cancel₀ (ne_of_gt hTpos) heq
    have : (j : ℚ) = (j' : ℚ) := by linarith
    exact hne (by exact_mod_cast this)
  · intro j
    rw [div_lt_div_iff_of_pos_right hTpos]
    have : (0 : ℚ) ≤ (j : ℚ) := Nat.cast_nonneg j
    linarith

/-- Witness for C8 on the three-vertex object with group "G" containing only
vertex 1: loop 1 (the group member, rank 0 of 1 active vertex) gets
U = 1.5/2, loop 0 (a non-member) is pinned to U = 0.5/2, below it. -/
theorem C8_witness :
    ((VertexAnimation.update_uv_layer exObj8 (some "G")).2).data.get? 1 =
      some ((((0 : ℚ) + 3/2) / ((1 : ℚ) + 1), (1/2 : ℚ))) ∧
    ((VertexAnimation.update_uv_layer exObj8 (some "G")).2).data.get? 0 =
      some (((1/2 : ℚ) / ((1 : ℚ) + 1), (1/2 : ℚ))) ∧
    (1/2 : ℚ) / ((1 : ℚ) + 1) < ((0 : ℚ) + 3/2) / ((1 : ℚ) + 1) := by
  have h := C8_uv_side_channel exObj8 (some "G")
    (by intro U hU; simp [exObj8] at hU)
    (by intro v hv; simp [exObj8] at hv ⊢; omega)
  refine ⟨?_, ?_, ?_⟩
  · have h1 := h.1 1 (by decide)
    rw [h1, if_pos (by decide),
      show VertexAnimation.rankIn (VertexAnimation.vatActiveFirsts exObj8
        (some "G")) (exObj8.loops.getD 1 0) = 0 from by decide,
      show VertexAnimation.vat_total exObj8 (some "G") = 1 from by decide]
    norm_num
  · have h0 := h.1 0 (by decide)
    rw [h0, if_neg (by decide),
      show VertexAnimation.vat_total exObj8 (some "G") = 1 from by decide]
    norm_num
  · have hp := h.2.2.2.2.2.2.2 0
    rw [show VertexAnimation.vat_total exObj8 (some "G") = 1 from by decide] at hp
    exact_mod_cast hp

end UnrealTools
